import Mathlib

/-!
# kafka-playground: the single-message forward pipeline

A shallow embedding of `src/kafka-playground/forwarder.go` and of the
`ensureTopic` copy in `src/kafka-playground/main.go`.  Two smaller embeddings
follow it: the retry loop of `src/cassandra-playground/main.go` and the
in-memory store of `src/rest-playground/main.go`.

The Go program talks to a Kafka cluster through the `kafka-go` client.  The
client calls are the program's only effects, so the embedding passes an
explicit state `σ` (the world the client talks to) through every call and
records every call, with its result, in a trace.  The client itself is a
parameter (`Client σ`): theorems about `main` and `ensureTopic` hold for every
client, and `Cluster` below is one concrete client, a small broker with
injectable faults.

Deadlines (`context.WithTimeout`) are real time and are not modelled: a call
that runs out of time is a call that returns an error.
-/

namespace KafkaPlayground

/-- A Go `[]byte`. -/
abbrev Bytes := List UInt8

/-- The bytes of a Go string literal made of ASCII characters. -/
def ascii (s : String) : Bytes := s.toList.map (fun c => UInt8.ofNat c.toNat)

/-- A Go `error` value: a `kafka.Error` code reported by a broker, any other
error (network, deadline), or an error wrapped by `fmt.Errorf("...%w", err)`. -/
inductive Error where
  | kafka (code : Int)
  | other (text : String)
  | wrap (format : String) (cause : Error)
deriving DecidableEq, Repr

/-- The `kafka.TopicAlreadyExists` error code. -/
def TopicAlreadyExists : Error := Error.kafka 36

/-- The fields of `kafka.Message` the program reads or writes. -/
structure Message where
  Topic : String := ""
  Partition : Int := 0
  Offset : Int := 0
  Key : Bytes := []
  Value : Bytes := []
deriving DecidableEq, Repr

/-- The fields of `kafka.TopicConfig` the program sets. -/
structure TopicConfig where
  Topic : String
  NumPartitions : Int
  ReplicationFactor : Int
deriving DecidableEq, Repr

/-- The fields of `kafka.Broker` the program reads. -/
structure Broker where
  Host : String
  Port : Int
deriving DecidableEq, Repr

/-- A `*kafka.Conn`, identified by the address it was dialled at. -/
structure Conn where
  address : String
deriving DecidableEq, Repr

/-- The fields of `kafka.ReaderConfig` the program sets; a `*kafka.Reader` is
identified by its configuration. -/
structure ReaderConfig where
  Brokers : List String
  Topic : String
  GroupID : String
deriving DecidableEq, Repr

/-- The fields of `kafka.WriterConfig` the program sets (the balancer does not
matter with one partition); a `*kafka.Writer` is identified by its
configuration. -/
structure WriterConfig where
  Brokers : List String
  Topic : String
deriving DecidableEq, Repr

deriving instance DecidableEq for Except

/-- An argument of a `log.Printf` call. -/
inductive Arg where
  | str (s : String)
  | bytes (b : Bytes)
  | int (i : Int)
  | err (e : Error)
deriving DecidableEq, Repr

/-- One effect of the program: a client call with its result, or a log line. -/
inductive Event where
  | Dial (network address : String) (res : Except Error Conn)
  | Controller (conn : Conn) (res : Except Error Broker)
  | CreateTopics (conn : Conn) (cfgs : List TopicConfig) (err : Option Error)
  | ConnClose (conn : Conn)
  | FetchMessage (r : ReaderConfig) (res : Except Error Message)
  | WriteMessages (w : WriterConfig) (msgs : List Message) (err : Option Error)
  | CommitMessages (r : ReaderConfig) (msgs : List Message) (err : Option Error)
  | ReaderClose (r : ReaderConfig) (err : Option Error)
  | WriterClose (w : WriterConfig) (err : Option Error)
  | Printf (format : String) (args : List Arg)
deriving DecidableEq

/-- The `kafka-go` calls the program makes, as transitions of a world `σ`. -/
structure Client (σ : Type) where
  Dial : String → String → σ → Except Error Conn × σ
  Controller : Conn → σ → Except Error Broker × σ
  CreateTopics : Conn → List TopicConfig → σ → Option Error × σ
  ConnClose : Conn → σ → σ
  FetchMessage : ReaderConfig → σ → Except Error Message × σ
  WriteMessages : WriterConfig → List Message → σ → Option Error × σ
  CommitMessages : ReaderConfig → List Message → σ → Option Error × σ
  ReaderClose : ReaderConfig → σ → Option Error × σ
  WriterClose : WriterConfig → σ → Option Error × σ

/-- How `main` ends: it returns, or `log.Fatalf(format, err)` prints and exits
with status 1 without running the deferred calls. -/
inductive Outcome where
  | returned
  | fatal (format : String) (err : Error)
deriving DecidableEq, Repr

/-- What a run leaves behind: how it ended, the calls it made in order, and
the world after the last call. -/
structure Run (σ : Type) where
  outcome : Outcome
  trace : List Event
  world : σ

/-- `ensureTopic` of `forwarder.go` (lines 88-121); the copy in `main.go`
(lines 55-95) differs in comments and in the name of a local variable only. -/
def ensureTopic {σ : Type} (K : Client σ) (brokerAddr topic : String) (s : σ) :
    Option Error × List Event × σ :=
  match K.Dial "tcp" brokerAddr s with
  | (.error err, s1) =>
    (some (.wrap "dial broker: %w" err), [.Dial "tcp" brokerAddr (.error err)], s1)
  | (.ok conn, s1) =>
    let t1 := [Event.Dial "tcp" brokerAddr (.ok conn)]
    match K.Controller conn s1 with
    | (.error err, s2) =>
      (some (.wrap "get controller: %w" err),
        t1 ++ [.Controller conn (.error err), .ConnClose conn], K.ConnClose conn s2)
    | (.ok controller, s2) =>
      let t2 := t1 ++ [Event.Controller conn (.ok controller)]
      let controllerAddr := controller.Host ++ ":" ++ toString controller.Port
      match K.Dial "tcp" controllerAddr s2 with
      | (.error err, s3) =>
        (some (.wrap "dial controller: %w" err),
          t2 ++ [.Dial "tcp" controllerAddr (.error err), .ConnClose conn],
          K.ConnClose conn s3)
      | (.ok ctrlConn, s3) =>
        let t3 := t2 ++ [Event.Dial "tcp" controllerAddr (.ok ctrlConn)]
        let cfgs : List TopicConfig :=
          [{ Topic := topic, NumPartitions := 1, ReplicationFactor := 1 }]
        match K.CreateTopics ctrlConn cfgs s3 with
        | (some err, s4) =>
          (none,
            t3 ++ [.CreateTopics ctrlConn cfgs (some err),
                   .Printf "CreateTopics (maybe already exists): %v\n" [.err err],
                   .ConnClose ctrlConn, .ConnClose conn],
            K.ConnClose conn (K.ConnClose ctrlConn s4))
        | (none, s4) =>
          (none,
            t3 ++ [.CreateTopics ctrlConn cfgs none, .ConnClose ctrlConn, .ConnClose conn],
            K.ConnClose conn (K.ConnClose ctrlConn s4))

/-- The deferred calls of `main`, run last-in first-out when it returns:
`cancel`, then `writer.Close`, then `reader.Close`, each close error logged. -/
def deferred {σ : Type} (K : Client σ) (reader : ReaderConfig) (writer : WriterConfig)
    (s : σ) : List Event × σ :=
  let (werr, s1) := K.WriterClose writer s
  let tw := Event.WriterClose writer werr ::
    (match werr with
     | some err => [Event.Printf "close writer: %v\n" [.err err]]
     | none => [])
  let (rerr, s2) := K.ReaderClose reader s1
  let tr := Event.ReaderClose reader rerr ::
    (match rerr with
     | some err => [Event.Printf "close reader: %v\n" [.err err]]
     | none => [])
  (tw ++ tr, s2)

/-- The `main` function of `forwarder.go` (lines 14-85). `kafka.NewReader` and
`kafka.NewWriter` only build the reader and the writer; the calls `main` waits
for are the ones below. -/
def main {σ : Type} (K : Client σ) (s : σ) : Run σ :=
  let brokers := ["localhost:9092"]
  let sourceTopic := "demo-topic"
  let targetTopic := "demo-topic-forwarded"
  match ensureTopic K brokers[0] targetTopic s with
  | (some err, t0, s0) => ⟨.fatal "ensure target topic: %v" err, t0, s0⟩
  | (none, t0, s0) =>
    let reader : ReaderConfig :=
      { Brokers := brokers, Topic := sourceTopic, GroupID := "forwarder-group" }
    let writer : WriterConfig := { Brokers := brokers, Topic := targetTopic }
    let t1 := t0 ++ [Event.Printf "waiting to fetch one message from topic=%s\n" [.str sourceTopic]]
    match K.FetchMessage reader s0 with
    | (.error err, s1) =>
      ⟨.fatal "fetch message: %v" err, t1 ++ [.FetchMessage reader (.error err)], s1⟩
    | (.ok msg, s1) =>
      let t2 := t1 ++ [Event.FetchMessage reader (.ok msg),
        Event.Printf "read message at offset=%d key=%s value=%s\n"
          [.int msg.Offset, .bytes msg.Key, .bytes msg.Value]]
      let forwardedValue := ascii "forwarded: " ++ msg.Value
      let out : List Message := [{ Key := msg.Key, Value := forwardedValue }]
      match K.WriteMessages writer out s1 with
      | (some err, s2) =>
        ⟨.fatal "write to target topic failed: %v" err,
          t2 ++ [.WriteMessages writer out (some err)], s2⟩
      | (none, s2) =>
        let t3 := t2 ++ [Event.WriteMessages writer out none]
        match K.CommitMessages reader [msg] s2 with
        | (some err, s3) =>
          ⟨.fatal "commit message: %v" err, t3 ++ [.CommitMessages reader [msg] (some err)], s3⟩
        | (none, s3) =>
          let t4 := t3 ++ [Event.CommitMessages reader [msg] none,
            Event.Printf "successfully forwarded message to topic=%s and committed offset\n"
              [.str targetTopic]]
          let (t5, s4) := deferred K reader writer s3
          ⟨.returned, t4 ++ t5, s4⟩

namespace Publisher

/-- `ensureTopic` of `main.go` (lines 55-95), the publisher's copy. -/
def ensureTopic {σ : Type} (K : Client σ) (brokerAddr topic : String) (s : σ) :
    Option Error × List Event × σ :=
  match K.Dial "tcp" brokerAddr s with
  | (.error err, s1) =>
    (some (.wrap "dial broker: %w" err), [.Dial "tcp" brokerAddr (.error err)], s1)
  | (.ok conn, s1) =>
    let t1 := [Event.Dial "tcp" brokerAddr (.ok conn)]
    match K.Controller conn s1 with
    | (.error err, s2) =>
      (some (.wrap "get controller: %w" err),
        t1 ++ [.Controller conn (.error err), .ConnClose conn], K.ConnClose conn s2)
    | (.ok controller, s2) =>
      let t2 := t1 ++ [Event.Controller conn (.ok controller)]
      let controllerAddr := controller.Host ++ ":" ++ toString controller.Port
      match K.Dial "tcp" controllerAddr s2 with
      | (.error err, s3) =>
        (some (.wrap "dial controller: %w" err),
          t2 ++ [.Dial "tcp" controllerAddr (.error err), .ConnClose conn],
          K.ConnClose conn s3)
      | (.ok ctrlConn, s3) =>
        let t3 := t2 ++ [Event.Dial "tcp" controllerAddr (.ok ctrlConn)]
        let topicConfigs : List TopicConfig :=
          [{ Topic := topic, NumPartitions := 1, ReplicationFactor := 1 }]
        match K.CreateTopics ctrlConn topicConfigs s3 with
        | (some err, s4) =>
          (none,
            t3 ++ [.CreateTopics ctrlConn topicConfigs (some err),
                   .Printf "CreateTopics (maybe already exists): %v\n" [.err err],
                   .ConnClose ctrlConn, .ConnClose conn],
            K.ConnClose conn (K.ConnClose ctrlConn s4))
        | (none, s4) =>
          (none,
            t3 ++ [.CreateTopics ctrlConn topicConfigs none, .ConnClose ctrlConn,
                   .ConnClose conn],
            K.ConnClose conn (K.ConnClose ctrlConn s4))

end Publisher

/-! ## Observations on a trace -/

/-- The record `main` passes to the writer for a fetched `msg`: the
`kafka.Message` literal of `forwarder.go` lines 69-74. -/
def forwarded (msg : Message) : Message :=
  { Key := msg.Key, Value := ascii "forwarded: " ++ msg.Value }

/-- The results of the `reader.FetchMessage` calls of a trace, in order. -/
def fetchCalls (tr : List Event) : List (Except Error Message) :=
  tr.filterMap fun
    | .FetchMessage _ res => some res
    | _ => none

/-- The `writer.WriteMessages` calls of a trace, in order: the records passed
and the error returned. -/
def writeCalls (tr : List Event) : List (List Message × Option Error) :=
  tr.filterMap fun
    | .WriteMessages _ msgs err => some (msgs, err)
    | _ => none

/-- The `reader.CommitMessages` calls of a trace, in order: the records passed
and the error returned. -/
def commitCalls (tr : List Event) : List (List Message × Option Error) :=
  tr.filterMap fun
    | .CommitMessages _ msgs err => some (msgs, err)
    | _ => none

/-- The `CreateTopics` calls of a trace, in order. -/
def createCalls (tr : List Event) : List (List TopicConfig × Option Error) :=
  tr.filterMap fun
    | .CreateTopics _ cfgs err => some (cfgs, err)
    | _ => none

/-! ## A broker with injectable faults

The cluster behind the client is not part of the repository.  This is the
broker the pipeline's contract is stated over: one partition per topic, a log
per topic, a committed offset per consumer group and topic.  A fetch returns
the record at the group's committed offset and moves nothing; an acknowledged
write appends the records to the topic's log; an acknowledged commit of a
record sets the group's committed offset to the record's offset + 1; a call
that fails changes nothing.  Creating a topic that exists reports
`TopicAlreadyExists`. -/

/-- A record of a topic's log. -/
structure Record where
  Key : Bytes
  Value : Bytes
deriving DecidableEq, Repr

/-- The state of the broker. -/
structure Cluster where
  controller : Broker
  topics : List String
  log : String → List Record
  committed : String → String → Nat

/-- The errors injected into one run: a call with an injected error fails with
it and has no effect. -/
structure Faults where
  dial : String → Option Error := fun _ => none
  controller : Option Error := none
  createTopics : Option Error := none
  fetch : Option Error := none
  write : Option Error := none
  commit : Option Error := none
  readerClose : Option Error := none
  writerClose : Option Error := none

/-- An acknowledged write: the records are appended to the topic's log. -/
def Cluster.append (c : Cluster) (topic : String) (msgs : List Message) : Cluster :=
  { c with log := fun t =>
      if t = topic then c.log t ++ msgs.map (fun m => { Key := m.Key, Value := m.Value })
      else c.log t }

/-- An acknowledged commit of one record: the group's committed offset for the
record's topic becomes the record's offset + 1. -/
def Cluster.commit (c : Cluster) (group : String) (m : Message) : Cluster :=
  { c with committed := fun g t =>
      if g = group ∧ t = m.Topic then (m.Offset + 1).toNat else c.committed g t }

/-- The record a fetch for `group` on `topic` returns: the one at the group's
committed offset, if the log is that long. -/
def Cluster.next (c : Cluster) (group topic : String) : Option Message :=
  match (c.log topic)[c.committed group topic]? with
  | some rec =>
    some { Topic := topic, Partition := 0, Offset := c.committed group topic,
           Key := rec.Key, Value := rec.Value }
  | none => none

/-- The broker as a client, under the faults of one run. -/
def Cluster.client (f : Faults) : Client Cluster where
  Dial := fun _ address c =>
    match f.dial address with
    | some e => (.error e, c)
    | none => (.ok { address := address }, c)
  Controller := fun _ c =>
    match f.controller with
    | some e => (.error e, c)
    | none => (.ok c.controller, c)
  CreateTopics := fun _ cfgs c =>
    match f.createTopics with
    | some e => (some e, c)
    | none =>
      let names := cfgs.map (fun cfg => cfg.Topic)
      let c1 := { c with topics := c.topics ++ names.filter (fun n => n ∉ c.topics) }
      if names.any (fun n => n ∈ c.topics) then (some TopicAlreadyExists, c1) else (none, c1)
  ConnClose := fun _ c => c
  FetchMessage := fun r c =>
    match f.fetch with
    | some e => (.error e, c)
    | none =>
      match c.next r.GroupID r.Topic with
      | some m => (.ok m, c)
      | none => (.error (.other "context deadline exceeded"), c)
  WriteMessages := fun w msgs c =>
    match f.write with
    | some e => (some e, c)
    | none => (none, c.append w.Topic msgs)
  CommitMessages := fun r msgs c =>
    match f.commit with
    | some e => (some e, c)
    | none => (none, msgs.foldl (fun c m => c.commit r.GroupID m) c)
  ReaderClose := fun _ c => (f.readerClose, c)
  WriterClose := fun _ c => (f.writerClose, c)

/-- A broker that holds the topic `demo-topic` with the given records and
nothing else; no offset is committed. -/
def Cluster.demo (records : List Record) : Cluster where
  controller := { Host := "localhost", Port := 9092 }
  topics := ["demo-topic"]
  log := fun t => if t = "demo-topic" then records else []
  committed := fun _ _ => 0

/-- The record `{key: "k1", value: "hello"}`. -/
def k1hello : Record := { Key := ascii "k1", Value := ascii "hello" }

/-- The reader `main` builds (lines 27-31). -/
def sourceReader : ReaderConfig :=
  { Brokers := ["localhost:9092"], Topic := "demo-topic", GroupID := "forwarder-group" }

/-- The writer `main` builds (lines 39-43). -/
def targetWriter : WriterConfig :=
  { Brokers := ["localhost:9092"], Topic := "demo-topic-forwarded" }

/-- The world `main` fetches in: the one `ensureTopic` leaves. -/
def provisioned {σ : Type} (K : Client σ) (s : σ) : σ :=
  (ensureTopic K "localhost:9092" "demo-topic-forwarded" s).2.2

/-- The record `main` fetches from `Cluster.demo [k1hello]`. -/
def k1helloMsg : Message :=
  { Topic := "demo-topic", Partition := 0, Offset := 0, Key := ascii "k1", Value := ascii "hello" }

/-- The faults of a run whose write to the target topic fails. -/
def writeFails : Faults := { write := some (.other "broker unreachable") }

/-- The faults of a run whose offset commit fails. -/
def commitFails : Faults := { commit := some (.other "coordinator unavailable") }

/-- The faults of a run whose fetch fails. -/
def fetchFails : Faults := { fetch := some (.other "context deadline exceeded") }

/-- The faults of a run in which the create-topic request is refused with
`kafka.TopicAuthorizationFailed` (code 29). -/
def createRefused : Faults := { createTopics := some (.kafka 29) }

/-- A broker whose controller is another node, `kafka-1:9093`. -/
def Cluster.remoteController : Cluster :=
  { Cluster.demo [k1hello] with controller := { Host := "kafka-1", Port := 9093 } }

/-- The faults of a run in which the controller cannot be reached. -/
def controllerDown : Faults :=
  { dial := fun a => if a = "kafka-1:9093" then some (.other "connection refused") else none }

/-- The one topic configuration `ensureTopic` asks for. -/
def onePartition (topic : String) : List TopicConfig :=
  [{ Topic := topic, NumPartitions := 1, ReplicationFactor := 1 }]

/-! ## Stages and outcome reports -/

/-- The three stages of the pipeline that follow provisioning. -/
inductive Stage where
  | fetch
  | write
  | commit
deriving DecidableEq, Repr

/-- The format `main` passes to `log.Fatalf` when a stage fails (lines 60, 76
and 81). -/
def Stage.format : Stage → String
  | .fetch => "fetch message: %v"
  | .write => "write to target topic failed: %v"
  | .commit => "commit message: %v"

/-- The stage calls of a trace, in order, each with the error it returned. -/
def stageCalls (tr : List Event) : List (Stage × Option Error) :=
  tr.filterMap fun
    | .FetchMessage _ (.ok _) => some (.fetch, none)
    | .FetchMessage _ (.error e) => some (.fetch, some e)
    | .WriteMessages _ _ err => some (.write, err)
    | .CommitMessages _ _ err => some (.commit, err)
    | _ => none

/-- The first stage call of a trace that returned an error, with that error. -/
def firstError (tr : List Event) : Option (Stage × Error) :=
  (stageCalls tr).findSome? fun c => c.2.map fun e => (c.1, e)

/-- Whether an event is the success line of `main` (line 84). -/
def isForwardedLine : Event → Bool
  | .Printf format _ =>
    format == "successfully forwarded message to topic=%s and committed offset\n"
  | _ => false

/-- The number of outcomes a run reports: its success lines, plus one if it
ended in `log.Fatalf`. -/
def reports {σ : Type} (R : Run σ) : Nat :=
  R.trace.countP isForwardedLine +
    (match R.outcome with
     | .fatal _ _ => 1
     | .returned => 0)

end KafkaPlayground

/-! # cassandra-playground: the session retry loop -/

namespace CassandraPlayground

/-- A Go `error` value, by its message. -/
structure Error where
  text : String
deriving DecidableEq, Repr

/-- The `gocql.Consistency` levels. -/
inductive Consistency where
  | Any
  | One
  | Two
  | Three
  | Quorum
  | All
  | LocalQuorum
  | EachQuorum
  | LocalOne
deriving DecidableEq, Repr

/-- A `time.Duration`, in nanoseconds. -/
abbrev Duration := Int

/-- The constant `time.Second`. -/
def Second : Duration := 1000000000

/-- The fields of `gocql.ClusterConfig` that `mustCreateSession` sets. -/
structure ClusterConfig where
  Hosts : List String
  Port : Int
  Keyspace : String
  Consistency : Consistency
  Timeout : Duration
deriving DecidableEq, Repr

/-- A `*gocql.Session`, identified by the number of the call that created it. -/
structure Session where
  id : Nat
deriving DecidableEq, Repr

/-- One effect of `mustCreateSession`: a `CreateSession` call with its result,
a log line, or a sleep. -/
inductive Event where
  | CreateSession (cluster : ClusterConfig) (res : Except Error Session)
  | Printf (format : String) (attempt : Int) (err : Error)
  | Sleep (d : Duration)
deriving DecidableEq

/-- How `mustCreateSession` ends: it returns a session, or
`log.Fatalf(format, err)` prints and exits with status 1. -/
inductive Result where
  | returned (session : Session)
  | fatal (format : String) (err : Option Error)
deriving DecidableEq

/-- The configuration `gocql.NewCluster` returns, for the fields above: the
given hosts, no keyspace, and the library's values for the port, the
consistency and the timeout, each of which `mustCreateSession` overwrites. -/
def NewCluster (hosts : List String) : ClusterConfig :=
  { Hosts := hosts, Port := 9042, Keyspace := "", Consistency := .Quorum,
    Timeout := 11 * Second }

/-- The retry loop of `mustCreateSession` (lines 85-92),
`for i := 0; i < 10; i++`, over the values `i` takes: the body does not assign
`i`. `create k` is the result of the call number `k` of
`cluster.CreateSession()`, counted from 0. -/
def mustCreateSession.loop (create : Nat → Except Error Session) (cluster : ClusterConfig) :
    List Nat → Option Error → Result × List Event
  | [], err => (.fatal "unable to connect to Cassandra after retries: %v" err, [])
  | i :: rest, _ =>
    match create i with
    | .ok session => (.returned session, [.CreateSession cluster (.ok session)])
    | .error err =>
      let next := mustCreateSession.loop create cluster rest (some err)
      (next.1,
        [.CreateSession cluster (.error err),
         .Printf "CreateSession failed (attempt %d): %v; retrying..." (i + 1) err,
         .Sleep (5 * Second)] ++ next.2)

/-- The function `mustCreateSession` of `cassandra-playground/main.go` (lines
68-96). -/
def mustCreateSession (create : Nat → Except Error Session) (keyspace : String) (port : Int) :
    Result × List Event :=
  let cluster := NewCluster ["127.0.0.1"]
  let cluster := { cluster with Port := port }
  let cluster := if keyspace ≠ "" then { cluster with Keyspace := keyspace } else cluster
  let cluster := { cluster with Consistency := .Quorum, Timeout := 5 * Second }
  mustCreateSession.loop create cluster (List.range 10) none

/-- The results of the `CreateSession` calls of a trace, in order. -/
def attempts (tr : List Event) : List (Except Error Session) :=
  tr.filterMap fun
    | .CreateSession _ res => some res
    | _ => none

/-- Session creation that fails three times and then succeeds. -/
def flaky (k : Nat) : Except Error Session :=
  if k < 3 then .error { text := "connection refused" } else .ok { id := k }

/-- Session creation that always fails. -/
def down (_ : Nat) : Except Error Session := .error { text := "connection refused" }

end CassandraPlayground

/-! # rest-playground: the in-memory user store -/

namespace RestPlayground

/-- A Go `int` on a 64-bit platform: the value of `x` after wrapping. -/
def wrap64 (x : Int) : Int :=
  (x + 9223372036854775808) % 18446744073709551616 - 9223372036854775808

/-- The `User` struct of `rest-playground/main.go`. -/
structure User where
  ID : Int
  Name : String
deriving DecidableEq, Repr

/-- The `userStore` struct, without its mutex: the lock makes each method call
atomic, and the calls are modelled one after the other. -/
structure userStore where
  users : List User
  nextID : Int
deriving DecidableEq, Repr

/-- The function `newUserStore` (lines 25-30). -/
def newUserStore : userStore :=
  { users := [], nextID := 1 }

/-- The method `addUser` (lines 33-46): the user returned and the store after
the call. -/
def userStore.addUser (s : userStore) (name : String) : User × userStore :=
  let u : User := { ID := s.nextID, Name := name }
  let s1 : userStore := { s with nextID := wrap64 (s.nextID + 1) }
  let s2 : userStore := { s1 with users := s1.users ++ [u] }
  (u, s2)

/-- The Go builtin `copy(dst, src)` on slices of users: the contents of `dst`
after the call. -/
def copy (dst src : List User) : List User :=
  src.take (min dst.length src.length) ++ dst.drop (min dst.length src.length)

/-- The method `listUsers` (lines 49-62): the slice returned and the store after
the call. -/
def userStore.listUsers (s : userStore) : List User × userStore :=
  let result := List.replicate s.users.length ({ ID := 0, Name := "" } : User)
  let result := copy result s.users
  (result, s)

/-- A sequence of `addUser` calls, one for each name: the users the calls
returned, in order, and the store after the last call. -/
def addUsers (s : userStore) : List String → List User × userStore
  | [] => ([], s)
  | name :: names =>
    let (u, s1) := s.addUser name
    let (us, s2) := addUsers s1 names
    (u :: us, s2)

/-- The users with the given names and the IDs `first`, `first + 1`, ... -/
def numbered (first : Int) : List String → List User
  | [] => []
  | name :: names => { ID := first, Name := name } :: numbered (first + 1) names

end RestPlayground

namespace KafkaPlayground

/-! ## Helper lemmas -/

theorem fetchCalls_append (a b : List Event) :
    fetchCalls (a ++ b) = fetchCalls a ++ fetchCalls b := by
  simp [fetchCalls]

theorem writeCalls_append (a b : List Event) :
    writeCalls (a ++ b) = writeCalls a ++ writeCalls b := by
  simp [writeCalls]

theorem commitCalls_append (a b : List Event) :
    commitCalls (a ++ b) = commitCalls a ++ commitCalls b := by
  simp [commitCalls]

theorem ensureTopic_no_stage {σ : Type} (K : Client σ) (a t : String) (s : σ) :
    fetchCalls (ensureTopic K a t s).2.1 = [] ∧ writeCalls (ensureTopic K a t s).2.1 = [] ∧
      commitCalls (ensureTopic K a t s).2.1 = [] := by
  unfold ensureTopic
  dsimp only
  repeat' split
  all_goals simp [fetchCalls, writeCalls, commitCalls]

theorem deferred_no_stage {σ : Type} (K : Client σ) (r : ReaderConfig) (w : WriterConfig)
    (s : σ) :
    fetchCalls (deferred K r w s).1 = [] ∧ writeCalls (deferred K r w s).1 = [] ∧
      commitCalls (deferred K r w s).1 = [] := by
  unfold deferred
  simp only []
  cases (K.WriterClose w s).1 <;> cases (K.ReaderClose r (K.WriterClose w s).2).1 <;>
    simp [fetchCalls, writeCalls, commitCalls]

/-- The five ways a run of `main` can go: which stage calls it made, with which
results, and which call produced the world it leaves. -/
theorem main_run {σ : Type} (K : Client σ) (s : σ) :
    (∃ err, (main K s).outcome = .fatal "ensure target topic: %v" err ∧
      (ensureTopic K "localhost:9092" "demo-topic-forwarded" s).1 = some err ∧
      fetchCalls (main K s).trace = [] ∧ writeCalls (main K s).trace = [] ∧
      commitCalls (main K s).trace = [] ∧
      (main K s).world = provisioned K s) ∨
    (∃ err, (main K s).outcome = .fatal "fetch message: %v" err ∧
      (ensureTopic K "localhost:9092" "demo-topic-forwarded" s).1 = none ∧
      fetchCalls (main K s).trace = [.error err] ∧ writeCalls (main K s).trace = [] ∧
      commitCalls (main K s).trace = [] ∧
      K.FetchMessage sourceReader (provisioned K s) = (.error err, (main K s).world)) ∨
    (∃ msg err s1, (main K s).outcome = .fatal "write to target topic failed: %v" err ∧
      (ensureTopic K "localhost:9092" "demo-topic-forwarded" s).1 = none ∧
      fetchCalls (main K s).trace = [.ok msg] ∧
      writeCalls (main K s).trace = [([forwarded msg], some err)] ∧
      commitCalls (main K s).trace = [] ∧
      K.FetchMessage sourceReader (provisioned K s) = (.ok msg, s1) ∧
      K.WriteMessages targetWriter [forwarded msg] s1 = (some err, (main K s).world)) ∨
    (∃ msg err s1 s2, (main K s).outcome = .fatal "commit message: %v" err ∧
      (ensureTopic K "localhost:9092" "demo-topic-forwarded" s).1 = none ∧
      fetchCalls (main K s).trace = [.ok msg] ∧
      writeCalls (main K s).trace = [([forwarded msg], none)] ∧
      commitCalls (main K s).trace = [([msg], some err)] ∧
      K.FetchMessage sourceReader (provisioned K s) = (.ok msg, s1) ∧
      K.WriteMessages targetWriter [forwarded msg] s1 = (none, s2) ∧
      K.CommitMessages sourceReader [msg] s2 = (some err, (main K s).world)) ∨
    (∃ msg s1 s2 s3, (main K s).outcome = .returned ∧
      (ensureTopic K "localhost:9092" "demo-topic-forwarded" s).1 = none ∧
      fetchCalls (main K s).trace = [.ok msg] ∧
      writeCalls (main K s).trace = [([forwarded msg], none)] ∧
      commitCalls (main K s).trace = [([msg], none)] ∧
      K.FetchMessage sourceReader (provisioned K s) = (.ok msg, s1) ∧
      K.WriteMessages targetWriter [forwarded msg] s1 = (none, s2) ∧
      K.CommitMessages sourceReader [msg] s2 = (none, s3) ∧
      (main K s).world = (deferred K sourceReader targetWriter s3).2) := by
  have hE := ensureTopic_no_stage K "localhost:9092" "demo-topic-forwarded" s
  unfold main provisioned sourceReader targetWriter
  dsimp only
  split
  · next err t0 s0 h =>
    left
    simp only [List.getElem_cons_zero] at h
    rw [h] at hE ⊢
    exact ⟨err, rfl, rfl, hE.1, hE.2.1, hE.2.2, rfl⟩
  · next t0 s0 h =>
    right
    simp only [List.getElem_cons_zero] at h
    rw [h] at hE ⊢
    obtain ⟨hf, hw, hc⟩ := hE
    dsimp only at hf hw hc ⊢
    split
    · next err s1 h1 =>
      left
      refine ⟨err, rfl, rfl, ?_, ?_, ?_, h1⟩ <;>
        simp only [fetchCalls_append, writeCalls_append, commitCalls_append, hf, hw, hc] <;> rfl
    · next msg s1 h1 =>
      right
      rw [h1]
      split
      · next err s2 h2 =>
        left
        refine ⟨msg, err, s1, rfl, rfl, ?_, ?_, ?_, rfl, h2⟩ <;>
          simp only [fetchCalls_append, writeCalls_append, commitCalls_append, hf, hw, hc] <;> rfl
      · next s2 h2 =>
        right
        split
        · next err s3 h3 =>
          left
          refine ⟨msg, err, s1, s2, rfl, rfl, ?_, ?_, ?_, rfl, h2, h3⟩ <;>
            simp only [fetchCalls_append, writeCalls_append, commitCalls_append, hf, hw, hc] <;> rfl
        · next s3 h3 =>
          right
          have hD := deferred_no_stage K
            { Brokers := ["localhost:9092"], Topic := "demo-topic", GroupID := "forwarder-group" }
            { Brokers := ["localhost:9092"], Topic := "demo-topic-forwarded" } s3
          refine ⟨msg, s1, s2, s3, rfl, rfl, ?_, ?_, ?_, rfl, h2, h3, rfl⟩ <;>
            simp only [fetchCalls_append, writeCalls_append, commitCalls_append, hf, hw, hc,
              hD.1, hD.2.1, hD.2.2] <;> rfl


theorem publisher_ensureTopic_eq {σ : Type} (K : Client σ) (a t : String) (s : σ) :
    Publisher.ensureTopic K a t s = ensureTopic K a t s := rfl

/-- On the broker, `ensureTopic` touches neither a log nor a committed offset. -/
theorem cluster_ensureTopic (f : Faults) (a t : String) (c : Cluster) :
    (ensureTopic (Cluster.client f) a t c).2.2.log = c.log ∧
      (ensureTopic (Cluster.client f) a t c).2.2.committed = c.committed := by
  unfold ensureTopic Cluster.client
  dsimp only
  cases f.dial a <;> cases f.controller <;> dsimp only
  all_goals try exact ⟨rfl, rfl⟩
  cases f.dial (c.controller.Host ++ ":" ++ toString c.controller.Port) <;>
    cases f.createTopics <;> dsimp only
  all_goals try exact ⟨rfl, rfl⟩
  split_ifs <;> exact ⟨rfl, rfl⟩

theorem cluster_deferred (f : Faults) (r : ReaderConfig) (w : WriterConfig) (c : Cluster) :
    (deferred (Cluster.client f) r w c).2 = c := rfl

theorem cluster_fetch (f : Faults) (r : ReaderConfig) (c c1 : Cluster)
    (res : Except Error Message) (h : (Cluster.client f).FetchMessage r c = (res, c1)) :
    c1 = c ∧ (∀ m, res = .ok m → c.next r.GroupID r.Topic = some m) ∧
      (∀ e, res = .error e → f.fetch = some e ∨ c.next r.GroupID r.Topic = none) := by
  unfold Cluster.client at h
  dsimp only at h
  cases hf : f.fetch <;> rw [hf] at h <;> dsimp only at h
  · cases hn : c.next r.GroupID r.Topic <;> rw [hn] at h <;> dsimp only at h <;>
      simp only [Prod.mk.injEq] at h <;> obtain ⟨h1, h2⟩ := h <;> subst h1 <;> subst h2 <;>
      simp
  · simp only [Prod.mk.injEq] at h
    obtain ⟨h1, h2⟩ := h
    subst h1; subst h2
    simp

theorem cluster_write (f : Faults) (w : WriterConfig) (msgs : List Message) (c c1 : Cluster)
    (r : Option Error) (h : (Cluster.client f).WriteMessages w msgs c = (r, c1)) :
    (r = none → c1 = c.append w.Topic msgs) ∧ (r ≠ none → c1 = c) := by
  unfold Cluster.client at h
  dsimp only at h
  cases hf : f.write <;> rw [hf] at h <;> dsimp only at h <;>
    simp only [Prod.mk.injEq] at h <;> obtain ⟨h1, h2⟩ := h <;> subst h1 <;> subst h2 <;> simp

theorem cluster_commit (f : Faults) (rd : ReaderConfig) (m : Message) (c c1 : Cluster)
    (r : Option Error) (h : (Cluster.client f).CommitMessages rd [m] c = (r, c1)) :
    (r = none → c1 = c.commit rd.GroupID m) ∧ (r ≠ none → c1 = c) := by
  unfold Cluster.client at h
  dsimp only at h
  cases hf : f.commit <;> rw [hf] at h <;> dsimp only at h <;>
    simp only [Prod.mk.injEq] at h <;> obtain ⟨h1, h2⟩ := h <;> subst h1 <;> subst h2 <;>
    simp [List.foldl]

theorem cluster_next_congr (c d : Cluster) (hl : d.log = c.log) (hc : d.committed = c.committed)
    (g t : String) : d.next g t = c.next g t := by
  unfold Cluster.next
  rw [hl, hc]

/-- The four ways a run of `main` on the broker can go, with what it leaves in
the logs and in the committed offsets. -/
theorem cluster_run (f : Faults) (c : Cluster) :
    ((fetchCalls (main (Cluster.client f) c).trace = [] ∨
        ∃ err, fetchCalls (main (Cluster.client f) c).trace = [.error err] ∧
          (f.fetch = some err ∨ c.next "forwarder-group" "demo-topic" = none)) ∧
      writeCalls (main (Cluster.client f) c).trace = [] ∧
      commitCalls (main (Cluster.client f) c).trace = [] ∧
      (main (Cluster.client f) c).world.log = c.log ∧
      (main (Cluster.client f) c).world.committed = c.committed) ∨
    (∃ msg err, fetchCalls (main (Cluster.client f) c).trace = [.ok msg] ∧
      c.next "forwarder-group" "demo-topic" = some msg ∧
      writeCalls (main (Cluster.client f) c).trace = [([forwarded msg], some err)] ∧
      commitCalls (main (Cluster.client f) c).trace = [] ∧
      (main (Cluster.client f) c).world.log = c.log ∧
      (main (Cluster.client f) c).world.committed = c.committed) ∨
    (∃ msg err, fetchCalls (main (Cluster.client f) c).trace = [.ok msg] ∧
      c.next "forwarder-group" "demo-topic" = some msg ∧
      writeCalls (main (Cluster.client f) c).trace = [([forwarded msg], none)] ∧
      commitCalls (main (Cluster.client f) c).trace = [([msg], some err)] ∧
      (main (Cluster.client f) c).world.log =
        (c.append "demo-topic-forwarded" [forwarded msg]).log ∧
      (main (Cluster.client f) c).world.committed = c.committed) ∨
    (∃ msg, fetchCalls (main (Cluster.client f) c).trace = [.ok msg] ∧
      c.next "forwarder-group" "demo-topic" = some msg ∧
      writeCalls (main (Cluster.client f) c).trace = [([forwarded msg], none)] ∧
      commitCalls (main (Cluster.client f) c).trace = [([msg], none)] ∧
      (main (Cluster.client f) c).world.log =
        (c.append "demo-topic-forwarded" [forwarded msg]).log ∧
      (main (Cluster.client f) c).world.committed = (c.commit "forwarder-group" msg).committed) := by
  have hp := cluster_ensureTopic f "localhost:9092" "demo-topic-forwarded" c
  have hl : (provisioned (Cluster.client f) c).log = c.log := hp.1
  have hc : (provisioned (Cluster.client f) c).committed = c.committed := hp.2
  have hn := cluster_next_congr c (provisioned (Cluster.client f) c) hl hc
    "forwarder-group" "demo-topic"
  rcases main_run (Cluster.client f) c with h | h | h | h | h
  · obtain ⟨err, _, _, hf, hw, hcm, hwld⟩ := h
    left
    rw [hwld]
    exact ⟨Or.inl hf, hw, hcm, hl, hc⟩
  · obtain ⟨err, _, _, hf, hw, hcm, hfetch⟩ := h
    left
    obtain ⟨h1, _, h1e⟩ := cluster_fetch f _ _ _ _ hfetch
    rw [h1]
    exact ⟨Or.inr ⟨err, hf, hn ▸ h1e err rfl⟩, hw, hcm, hl, hc⟩
  · obtain ⟨msg, err, s1, _, _, hf, hw, hcm, hfetch, hwrite⟩ := h
    right; left
    obtain ⟨h1, h1n, _⟩ := cluster_fetch f _ _ _ _ hfetch
    obtain ⟨_, h2⟩ := cluster_write f _ _ _ _ _ hwrite
    rw [h2 (by simp), h1]
    exact ⟨msg, err, hf, hn ▸ h1n msg rfl, hw, hcm, hl, hc⟩
  · obtain ⟨msg, err, s1, s2, _, _, hf, hw, hcm, hfetch, hwrite, hcommit⟩ := h
    right; right; left
    obtain ⟨h1, h1n, _⟩ := cluster_fetch f _ _ _ _ hfetch
    obtain ⟨h2, _⟩ := cluster_write f _ _ _ _ _ hwrite
    obtain ⟨_, h3⟩ := cluster_commit f _ _ _ _ _ hcommit
    rw [h3 (by simp), h2 rfl, h1]
    refine ⟨msg, err, hf, hn ▸ h1n msg rfl, hw, hcm, ?_, hc⟩
    simp only [Cluster.append, hl]
    rfl
  · obtain ⟨msg, s1, s2, s3, _, _, hf, hw, hcm, hfetch, hwrite, hcommit, hwld⟩ := h
    right; right; right
    obtain ⟨h1, h1n, _⟩ := cluster_fetch f _ _ _ _ hfetch
    obtain ⟨h2, _⟩ := cluster_write f _ _ _ _ _ hwrite
    obtain ⟨h3, _⟩ := cluster_commit f _ _ _ _ _ hcommit
    rw [hwld, cluster_deferred, h3 rfl, h2 rfl, h1]
    refine ⟨msg, hf, hn ▸ h1n msg rfl, hw, hcm, ?_, ?_⟩
    · simp only [Cluster.commit, Cluster.append, hl]
      rfl
    · simp only [Cluster.commit, Cluster.append, hc]
      rfl

/-- On the broker, `ensureTopic` returns no error when no dial and no
controller lookup is made to fail. -/
theorem cluster_ensureTopic_ok (f : Faults) (a t : String) (c : Cluster)
    (hd : ∀ x, f.dial x = none) (hk : f.controller = none) :
    (ensureTopic (Cluster.client f) a t c).1 = none := by
  unfold ensureTopic Cluster.client
  dsimp only
  rw [hd a, hk]
  dsimp only
  rw [hd]
  dsimp only
  cases f.createTopics <;> dsimp only
  split_ifs <;> rfl

/-- On the broker, a run with no dial and no controller fault reaches the
fetch stage. -/
theorem cluster_reaches_fetch (f : Faults) (c : Cluster)
    (hd : ∀ x, f.dial x = none) (hk : f.controller = none) :
    fetchCalls (main (Cluster.client f) c).trace ≠ [] := by
  have hok := cluster_ensureTopic_ok f "localhost:9092" "demo-topic-forwarded" c hd hk
  rcases main_run (Cluster.client f) c with h | h | h | h | h
  · obtain ⟨err, _, he, _⟩ := h
    rw [hok] at he
    cases he
  · obtain ⟨err, _, _, hf, _⟩ := h
    simp [hf]
  · obtain ⟨msg, err, s1, _, _, hf, _⟩ := h
    simp [hf]
  · obtain ⟨msg, err, s1, s2, _, _, hf, _⟩ := h
    simp [hf]
  · obtain ⟨msg, s1, s2, s3, _, _, hf, _⟩ := h
    simp [hf]

theorem cluster_next_some (c : Cluster) (g t : String) (m : Message)
    (h : c.next g t = some m) :
    m.Topic = t ∧ m.Offset = c.committed g t ∧
      (c.log t)[c.committed g t]? = some { Key := m.Key, Value := m.Value } := by
  unfold Cluster.next at h
  split at h
  · next rec hrec =>
    simp only [Option.some.injEq] at h
    subst h
    exact ⟨rfl, rfl, hrec⟩
  · cases h

theorem append_log_self (c : Cluster) (t : String) (msgs : List Message) :
    (c.append t msgs).log t =
      c.log t ++ msgs.map (fun m => { Key := m.Key, Value := m.Value }) := by
  simp [Cluster.append]

theorem append_log_source (c : Cluster) (msgs : List Message) :
    (c.append "demo-topic-forwarded" msgs).log "demo-topic" = c.log "demo-topic" := by
  simp [Cluster.append]

/-! ## The ordering of write and commit -/

/-- C1: in every run of `main` in which the fetch succeeds and the write to the
target topic returns an error, `reader.CommitMessages` is never invoked. -/
theorem commit_never_invoked_when_write_fails {σ : Type} (K : Client σ) (s : σ)
    (msg : Message) (out : List Message) (e : Error)
    (_hfetch : Except.ok msg ∈ fetchCalls (main K s).trace)
    (hwrite : (out, some e) ∈ writeCalls (main K s).trace) :
    commitCalls (main K s).trace = [] := by
  rcases main_run K s with h | h | h | h | h
  · obtain ⟨_, _, _, _, _, hc, _⟩ := h
    exact hc
  · obtain ⟨_, _, _, _, _, hc, _⟩ := h
    exact hc
  · obtain ⟨_, _, _, _, _, _, _, hc, _⟩ := h
    exact hc
  · obtain ⟨_, _, _, _, _, _, _, hw, _⟩ := h
    rw [hw] at hwrite
    simp at hwrite
  · obtain ⟨_, _, _, _, _, _, _, hw, _⟩ := h
    rw [hw] at hwrite
    simp at hwrite

/-- A run on a broker holding `{k1, hello}` whose write fails: the fetch
succeeded, the write returned the injected error, and no commit was made. -/
theorem commit_never_invoked_when_write_fails_witness :
    Except.ok k1helloMsg ∈
        fetchCalls (main (Cluster.client writeFails) (Cluster.demo [k1hello])).trace ∧
      ([forwarded k1helloMsg], some (Error.other "broker unreachable")) ∈
        writeCalls (main (Cluster.client writeFails) (Cluster.demo [k1hello])).trace ∧
      commitCalls (main (Cluster.client writeFails) (Cluster.demo [k1hello])).trace = [] :=
  ⟨by decide, by decide,
    commit_never_invoked_when_write_fails (Cluster.client writeFails) (Cluster.demo [k1hello])
      k1helloMsg [forwarded k1helloMsg] (Error.other "broker unreachable")
      (by decide) (by decide)⟩

/-! ## The transformation -/

/-- C2: for every fetched record `msg`, what `main` passes to the writer is one
record, whose key is the key of `msg` and whose value is the ASCII bytes
`forwarded: ` followed by the value of `msg`; any source record with the same
key and value, whatever its topic, partition and offset, gives this same
record. -/
theorem written_record_is_forwarded {σ : Type} (K : Client σ) (s : σ)
    (msg : Message) (out : List Message) (r : Option Error)
    (hfetch : Except.ok msg ∈ fetchCalls (main K s).trace)
    (hwrite : (out, r) ∈ writeCalls (main K s).trace) :
    ∃ rec, out = [rec] ∧ rec.Key = msg.Key ∧
      rec.Value = [102, 111, 114, 119, 97, 114, 100, 101, 100, 58, 32] ++ msg.Value ∧
      ∀ src : Message, src.Key = msg.Key → src.Value = msg.Value → forwarded src = rec := by
  have key : ∀ m : Message, fetchCalls (main K s).trace = [.ok m] →
      (∃ r2, writeCalls (main K s).trace = [([forwarded m], r2)]) →
      ∃ rec, out = [rec] ∧ rec.Key = msg.Key ∧
        rec.Value = [102, 111, 114, 119, 97, 114, 100, 101, 100, 58, 32] ++ msg.Value ∧
        ∀ src : Message, src.Key = msg.Key → src.Value = msg.Value → forwarded src = rec := by
    intro m hf hw
    rw [hf] at hfetch
    simp only [List.mem_singleton, Except.ok.injEq] at hfetch
    subst hfetch
    have hout : out = [forwarded msg] := by
      obtain ⟨r2, hw⟩ := hw
      rw [hw] at hwrite
      simp only [List.mem_singleton, Prod.mk.injEq] at hwrite
      exact hwrite.1
    refine ⟨forwarded msg, hout, rfl, rfl, ?_⟩
    intro src hk hv
    simp only [forwarded, hk, hv]
  rcases main_run K s with h | h | h | h | h
  · obtain ⟨_, _, _, hf, _⟩ := h
    rw [hf] at hfetch
    cases hfetch
  · obtain ⟨_, _, _, _, hw, _⟩ := h
    rw [hw] at hwrite
    cases hwrite
  · obtain ⟨m, err, _, _, _, hf, hw, _⟩ := h
    exact key m hf ⟨_, hw⟩
  · obtain ⟨m, err, _, _, _, _, hf, hw, _⟩ := h
    exact key m hf ⟨_, hw⟩
  · obtain ⟨m, _, _, _, _, _, hf, hw, _⟩ := h
    exact key m hf ⟨_, hw⟩

/-- The record `{k1, hello}` is written as `{k1, forwarded: hello}`. -/
theorem written_record_is_forwarded_witness :
    (Except.ok k1helloMsg ∈
        fetchCalls (main (Cluster.client { }) (Cluster.demo [k1hello])).trace ∧
      ([{ Key := ascii "k1", Value := ascii "forwarded: hello" }], none) ∈
        writeCalls (main (Cluster.client { }) (Cluster.demo [k1hello])).trace) ∧
      ∃ rec, [{ Key := ascii "k1", Value := ascii "forwarded: hello" }] = [rec] ∧
        rec.Key = k1helloMsg.Key ∧
        rec.Value = [102, 111, 114, 119, 97, 114, 100, 101, 100, 58, 32] ++ k1helloMsg.Value ∧
        ∀ src : Message, src.Key = k1helloMsg.Key → src.Value = k1helloMsg.Value →
          forwarded src = rec :=
  ⟨⟨by decide, by decide⟩,
    written_record_is_forwarded (Cluster.client { }) (Cluster.demo [k1hello]) k1helloMsg
      [{ Key := ascii "k1", Value := ascii "forwarded: hello" }] none (by decide) (by decide)⟩

/-! ## Runs on the broker -/

/-- C3: on the broker, in every run in which fetch, write and commit all
succeed, the fetched record is the source record at the group's committed
offset, the target log gains exactly one record, the transform of the fetched
record, the one commit is issued for exactly the fetched record, and the
source committed offset advances by exactly 1. -/
theorem forward_appends_one_and_advances_by_one (f : Faults) (c : Cluster)
    (msg : Message) (out cs : List Message)
    (hfetch : Except.ok msg ∈ fetchCalls (main (Cluster.client f) c).trace)
    (hwrite : (out, none) ∈ writeCalls (main (Cluster.client f) c).trace)
    (hcommit : (cs, none) ∈ commitCalls (main (Cluster.client f) c).trace) :
    (c.log "demo-topic")[c.committed "forwarder-group" "demo-topic"]? =
        some { Key := msg.Key, Value := msg.Value } ∧
      (main (Cluster.client f) c).world.log "demo-topic-forwarded" =
        c.log "demo-topic-forwarded" ++
          [{ Key := msg.Key, Value := ascii "forwarded: " ++ msg.Value }] ∧
      writeCalls (main (Cluster.client f) c).trace = [([forwarded msg], none)] ∧
      commitCalls (main (Cluster.client f) c).trace = [([msg], none)] ∧
      (main (Cluster.client f) c).world.committed "forwarder-group" "demo-topic" =
        c.committed "forwarder-group" "demo-topic" + 1 := by
  rcases cluster_run f c with h | h | h | h
  · obtain ⟨_, hw, _⟩ := h
    rw [hw] at hwrite
    cases hwrite
  · obtain ⟨_, _, _, _, _, hc, _⟩ := h
    rw [hc] at hcommit
    cases hcommit
  · obtain ⟨_, _, _, _, _, hc, _⟩ := h
    rw [hc] at hcommit
    simp at hcommit
  · obtain ⟨m, hf, hn, hw, hc, hlog, hcom⟩ := h
    rw [hf] at hfetch
    simp only [List.mem_singleton, Except.ok.injEq] at hfetch
    subst hfetch
    obtain ⟨ht, ho, hrec⟩ := cluster_next_some c _ _ _ hn
    refine ⟨hrec, ?_, hw, hc, ?_⟩
    · rw [hlog, append_log_self]
      rfl
    · rw [hcom]
      simp [Cluster.commit, ht, ho]

/-- The end-to-end scenario: `{k1, hello}` published to `demo-topic`, no fault;
the target log holds the one record `{k1, forwarded: hello}` and the committed
offset went from 0 to 1. -/
theorem forward_appends_one_and_advances_by_one_witness :
    (Except.ok k1helloMsg ∈
        fetchCalls (main (Cluster.client { }) (Cluster.demo [k1hello])).trace ∧
      ([forwarded k1helloMsg], none) ∈
        writeCalls (main (Cluster.client { }) (Cluster.demo [k1hello])).trace ∧
      ([k1helloMsg], none) ∈
        commitCalls (main (Cluster.client { }) (Cluster.demo [k1hello])).trace) ∧
      (main (Cluster.client { }) (Cluster.demo [k1hello])).world.log "demo-topic-forwarded" =
        [{ Key := ascii "k1", Value := ascii "forwarded: hello" }] ∧
      (main (Cluster.client { }) (Cluster.demo [k1hello])).world.committed
        "forwarder-group" "demo-topic" = 0 + 1 :=
  ⟨⟨by decide, by decide, by decide⟩,
    (forward_appends_one_and_advances_by_one { } (Cluster.demo [k1hello]) k1helloMsg
      [forwarded k1helloMsg] [k1helloMsg] (by decide) (by decide) (by decide)).2.1,
    (forward_appends_one_and_advances_by_one { } (Cluster.demo [k1hello]) k1helloMsg
      [forwarded k1helloMsg] [k1helloMsg] (by decide) (by decide) (by decide)).2.2.2.2⟩

/-- What a run on the broker fetches when the group's next record is `msg`:
`msg`, or the error injected into the fetch. -/
theorem cluster_refetch (f : Faults) (c : Cluster) (msg : Message)
    (hn : c.next "forwarder-group" "demo-topic" = some msg)
    (res : Except Error Message)
    (hres : res ∈ fetchCalls (main (Cluster.client f) c).trace) :
    res = .ok msg ∨ ∃ e, f.fetch = some e ∧ res = .error e := by
  have hm : ∀ m, fetchCalls (main (Cluster.client f) c).trace = [.ok m] →
      c.next "forwarder-group" "demo-topic" = some m → res = .ok msg := by
    intro m hf hn2
    rw [hf] at hres
    rw [hn] at hn2
    simp only [Option.some.injEq] at hn2
    subst hn2
    simpa using hres
  rcases cluster_run f c with h | h | h | h
  · obtain ⟨hf | ⟨err, hf, hwhy⟩, _⟩ := h
    · rw [hf] at hres
      cases hres
    · rw [hf] at hres
      simp only [List.mem_singleton] at hres
      rcases hwhy with hwhy | hwhy
      · exact Or.inr ⟨err, hwhy, hres⟩
      · rw [hn] at hwhy
        cases hwhy
  · obtain ⟨m, _, hf, hn2, _⟩ := h
    exact Or.inl (hm m hf hn2)
  · obtain ⟨m, _, hf, hn2, _⟩ := h
    exact Or.inl (hm m hf hn2)
  · obtain ⟨m, hf, hn2, _⟩ := h
    exact Or.inl (hm m hf hn2)

/-- C4: on the broker, in every run in which the fetch succeeds and the write
fails, the committed offsets after the run are those before it, and a
subsequent run fetches the same record again: its fetch returns that record
unless an error is injected into it, and does return it when no dial, no
controller lookup and no fetch is made to fail. -/
theorem write_failure_leaves_offset_and_refetches (f : Faults) (c : Cluster)
    (msg : Message) (out : List Message) (e : Error)
    (hfetch : Except.ok msg ∈ fetchCalls (main (Cluster.client f) c).trace)
    (hwrite : (out, some e) ∈ writeCalls (main (Cluster.client f) c).trace) :
    (main (Cluster.client f) c).world.committed = c.committed ∧
      (∀ (f2 : Faults) (res : Except Error Message),
        res ∈ fetchCalls (main (Cluster.client f2) (main (Cluster.client f) c).world).trace →
          res = .ok msg ∨ ∃ e2, f2.fetch = some e2 ∧ res = .error e2) ∧
      (∀ f2 : Faults, (∀ x, f2.dial x = none) → f2.controller = none → f2.fetch = none →
        fetchCalls (main (Cluster.client f2) (main (Cluster.client f) c).world).trace =
          [.ok msg]) := by
  have hafter : (main (Cluster.client f) c).world.committed = c.committed ∧
      (main (Cluster.client f) c).world.next "forwarder-group" "demo-topic" = some msg := by
    rcases cluster_run f c with h | h | h | h
    · obtain ⟨_, hw, _⟩ := h
      rw [hw] at hwrite
      cases hwrite
    · obtain ⟨m, _, hf, hn, _, _, hlog, hcom⟩ := h
      rw [hf] at hfetch
      simp only [List.mem_singleton, Except.ok.injEq] at hfetch
      subst hfetch
      exact ⟨hcom, (cluster_next_congr c _ hlog hcom _ _).trans hn⟩
    · obtain ⟨_, _, _, _, hw, _⟩ := h
      rw [hw] at hwrite
      simp at hwrite
    · obtain ⟨_, _, _, hw, _⟩ := h
      rw [hw] at hwrite
      simp at hwrite
  refine ⟨hafter.1, fun f2 res hres => cluster_refetch f2 _ msg hafter.2 res hres, ?_⟩
  intro f2 hd hk hfe
  have hne := cluster_reaches_fetch f2 (main (Cluster.client f) c).world hd hk
  have hall := cluster_refetch f2 _ msg hafter.2
  rcases cluster_run f2 (main (Cluster.client f) c).world with h | h | h | h
  · obtain ⟨hf | ⟨err, hf, _⟩, _⟩ := h
    · exact absurd hf hne
    · rcases hall (.error err) (by simp [hf]) with h1 | ⟨e2, h2, _⟩
      · cases h1
      · rw [hfe] at h2
        cases h2
  · obtain ⟨m, _, hf, _⟩ := h
    rcases hall (.ok m) (by simp [hf]) with h1 | ⟨e2, _, h2⟩
    · rw [hf, h1]
    · cases h2
  · obtain ⟨m, _, hf, _⟩ := h
    rcases hall (.ok m) (by simp [hf]) with h1 | ⟨e2, _, h2⟩
    · rw [hf, h1]
    · cases h2
  · obtain ⟨m, hf, _⟩ := h
    rcases hall (.ok m) (by simp [hf]) with h1 | ⟨e2, _, h2⟩
    · rw [hf, h1]
    · cases h2

/-- The write of `{k1, hello}` fails: the committed offset is still 0 and the
next run, with no fault, fetches `{k1, hello}` again. -/
theorem write_failure_leaves_offset_and_refetches_witness :
    (Except.ok k1helloMsg ∈
        fetchCalls (main (Cluster.client writeFails) (Cluster.demo [k1hello])).trace ∧
      ([forwarded k1helloMsg], some (Error.other "broker unreachable")) ∈
        writeCalls (main (Cluster.client writeFails) (Cluster.demo [k1hello])).trace) ∧
      (main (Cluster.client writeFails) (Cluster.demo [k1hello])).world.committed
        "forwarder-group" "demo-topic" = 0 ∧
      fetchCalls (main (Cluster.client { })
        (main (Cluster.client writeFails) (Cluster.demo [k1hello])).world).trace =
          [.ok k1helloMsg] :=
  ⟨⟨by decide, by decide⟩,
    congrFun (congrFun (write_failure_leaves_offset_and_refetches writeFails
      (Cluster.demo [k1hello]) k1helloMsg [forwarded k1helloMsg]
      (Error.other "broker unreachable") (by decide) (by decide)).1 "forwarder-group")
      "demo-topic",
    (write_failure_leaves_offset_and_refetches writeFails (Cluster.demo [k1hello]) k1helloMsg
      [forwarded k1helloMsg] (Error.other "broker unreachable") (by decide) (by decide)).2.2
      { } (fun _ => rfl) rfl rfl⟩

/-- C5: on the broker, in every run in which fetch and write succeed and the
commit fails, the target log has gained one record and the committed offsets
are unchanged; a rerun whose write succeeds has fetched the same source record
and leaves the target log with a second record equal to the first. -/
theorem commit_failure_rerun_duplicates (f : Faults) (c : Cluster)
    (msg : Message) (out cs : List Message) (e : Error)
    (hfetch : Except.ok msg ∈ fetchCalls (main (Cluster.client f) c).trace)
    (hwrite : (out, none) ∈ writeCalls (main (Cluster.client f) c).trace)
    (hcommit : (cs, some e) ∈ commitCalls (main (Cluster.client f) c).trace) :
    (main (Cluster.client f) c).world.log "demo-topic-forwarded" =
        c.log "demo-topic-forwarded" ++
          [{ Key := msg.Key, Value := ascii "forwarded: " ++ msg.Value }] ∧
      (main (Cluster.client f) c).world.committed = c.committed ∧
      ∀ (f2 : Faults) (msg2 : Message) (out2 : List Message),
        Except.ok msg2 ∈
          fetchCalls (main (Cluster.client f2) (main (Cluster.client f) c).world).trace →
        (out2, none) ∈
          writeCalls (main (Cluster.client f2) (main (Cluster.client f) c).world).trace →
        msg2 = msg ∧ out2 = out ∧
          (main (Cluster.client f2) (main (Cluster.client f) c).world).world.log
              "demo-topic-forwarded" =
            c.log "demo-topic-forwarded" ++
              [{ Key := msg.Key, Value := ascii "forwarded: " ++ msg.Value },
               { Key := msg.Key, Value := ascii "forwarded: " ++ msg.Value }] := by
  have hafter : out = [forwarded msg] ∧
      (main (Cluster.client f) c).world.log =
        (c.append "demo-topic-forwarded" [forwarded msg]).log ∧
      (main (Cluster.client f) c).world.committed = c.committed ∧
      c.next "forwarder-group" "demo-topic" = some msg := by
    rcases cluster_run f c with h | h | h | h
    · obtain ⟨_, hw, _⟩ := h
      rw [hw] at hwrite
      cases hwrite
    · obtain ⟨_, _, _, _, _, hc, _⟩ := h
      rw [hc] at hcommit
      cases hcommit
    · obtain ⟨m, _, hf, hn, hw, _, hlog, hcom⟩ := h
      rw [hf] at hfetch
      simp only [List.mem_singleton, Except.ok.injEq] at hfetch
      subst hfetch
      rw [hw] at hwrite
      simp only [List.mem_singleton, Prod.mk.injEq] at hwrite
      exact ⟨hwrite.1, hlog, hcom, hn⟩
    · obtain ⟨_, _, _, _, hc, _⟩ := h
      rw [hc] at hcommit
      simp at hcommit
  obtain ⟨hout, hlog, hcom, hn⟩ := hafter
  have hn1 : (main (Cluster.client f) c).world.next "forwarder-group" "demo-topic" =
      some msg := by
    unfold Cluster.next
    rw [hlog, hcom, append_log_source]
    exact hn
  refine ⟨by rw [hlog, append_log_self]; rfl, hcom, ?_⟩
  intro f2 msg2 out2 hfetch2 hwrite2
  have hsame : msg2 = msg := by
    rcases cluster_refetch f2 _ msg hn1 _ hfetch2 with h | ⟨_, _, h⟩
    · exact Except.ok.inj h
    · cases h
  subst hsame
  have hlog2 : ∀ m, fetchCalls
        (main (Cluster.client f2) (main (Cluster.client f) c).world).trace = [.ok m] →
      writeCalls (main (Cluster.client f2) (main (Cluster.client f) c).world).trace =
        [([forwarded m], none)] →
      (main (Cluster.client f2) (main (Cluster.client f) c).world).world.log =
        ((main (Cluster.client f) c).world.append "demo-topic-forwarded" [forwarded m]).log →
      msg2 = msg2 ∧ out2 = out ∧
        (main (Cluster.client f2) (main (Cluster.client f) c).world).world.log
            "demo-topic-forwarded" =
          c.log "demo-topic-forwarded" ++
            [{ Key := msg2.Key, Value := ascii "forwarded: " ++ msg2.Value },
             { Key := msg2.Key, Value := ascii "forwarded: " ++ msg2.Value }] := by
    intro m hf hw hl
    rw [hf] at hfetch2
    simp only [List.mem_singleton, Except.ok.injEq] at hfetch2
    subst hfetch2
    rw [hw] at hwrite2
    simp only [List.mem_singleton, Prod.mk.injEq] at hwrite2
    refine ⟨rfl, hwrite2.1.trans hout.symm, ?_⟩
    rw [hl, append_log_self, hlog, append_log_self]
    simp [forwarded]
  rcases cluster_run f2 (main (Cluster.client f) c).world with h | h | h | h
  · obtain ⟨_, hw, _⟩ := h
    rw [hw] at hwrite2
    cases hwrite2
  · obtain ⟨_, _, _, _, hw, _⟩ := h
    rw [hw] at hwrite2
    simp at hwrite2
  · obtain ⟨m, _, hf, _, hw, _, hl, _⟩ := h
    exact hlog2 m hf hw hl
  · obtain ⟨m, hf, _, hw, _, hl, _⟩ := h
    exact hlog2 m hf hw hl

/-- The commit of `{k1, hello}` fails after its write: the target log holds
`{k1, forwarded: hello}` and the committed offset is still 0; the rerun, with
no fault, leaves the target log with that record twice. -/
theorem commit_failure_rerun_duplicates_witness :
    (Except.ok k1helloMsg ∈
        fetchCalls (main (Cluster.client commitFails) (Cluster.demo [k1hello])).trace ∧
      ([forwarded k1helloMsg], none) ∈
        writeCalls (main (Cluster.client commitFails) (Cluster.demo [k1hello])).trace ∧
      ([k1helloMsg], some (Error.other "coordinator unavailable")) ∈
        commitCalls (main (Cluster.client commitFails) (Cluster.demo [k1hello])).trace) ∧
      (main (Cluster.client commitFails) (Cluster.demo [k1hello])).world.log
          "demo-topic-forwarded" =
        [{ Key := ascii "k1", Value := ascii "forwarded: hello" }] ∧
      (main (Cluster.client { })
          (main (Cluster.client commitFails) (Cluster.demo [k1hello])).world).world.log
          "demo-topic-forwarded" =
        [{ Key := ascii "k1", Value := ascii "forwarded: hello" },
         { Key := ascii "k1", Value := ascii "forwarded: hello" }] :=
  ⟨⟨by decide, by decide, by decide⟩,
    (commit_failure_rerun_duplicates commitFails (Cluster.demo [k1hello]) k1helloMsg
      [forwarded k1helloMsg] [k1helloMsg] (Error.other "coordinator unavailable")
      (by decide) (by decide) (by decide)).1,
    ((commit_failure_rerun_duplicates commitFails (Cluster.demo [k1hello]) k1helloMsg
      [forwarded k1helloMsg] [k1helloMsg] (Error.other "coordinator unavailable")
      (by decide) (by decide) (by decide)).2.2 { } k1helloMsg [forwarded k1helloMsg]
      (by decide) (by decide)).2.2⟩

/-- C10: on the broker, in every run in which the fetch returns an error, the
run ends at the fetch stage with that error, neither `WriteMessages` nor
`CommitMessages` is invoked, and every log and every committed offset is what
it was before the run. -/
theorem fetch_failure_changes_nothing (f : Faults) (c : Cluster) (e : Error)
    (hfetch : Except.error e ∈ fetchCalls (main (Cluster.client f) c).trace) :
    (main (Cluster.client f) c).outcome = .fatal "fetch message: %v" e ∧
      writeCalls (main (Cluster.client f) c).trace = [] ∧
      commitCalls (main (Cluster.client f) c).trace = [] ∧
      (main (Cluster.client f) c).world.log = c.log ∧
      (main (Cluster.client f) c).world.committed = c.committed := by
  have hout : (main (Cluster.client f) c).outcome = .fatal "fetch message: %v" e := by
    rcases main_run (Cluster.client f) c with h | h | h | h | h
    · obtain ⟨_, _, _, hf, _⟩ := h
      rw [hf] at hfetch
      cases hfetch
    · obtain ⟨err, ho, _, hf, _⟩ := h
      rw [hf] at hfetch
      simp only [List.mem_singleton, Except.error.injEq] at hfetch
      rw [ho, hfetch]
    · obtain ⟨_, _, _, _, _, hf, _⟩ := h
      rw [hf] at hfetch
      simp at hfetch
    · obtain ⟨_, _, _, _, _, _, hf, _⟩ := h
      rw [hf] at hfetch
      simp at hfetch
    · obtain ⟨_, _, _, _, _, _, hf, _⟩ := h
      rw [hf] at hfetch
      simp at hfetch
  rcases cluster_run f c with h | h | h | h
  · obtain ⟨_, hw, hc, hlog, hcom⟩ := h
    exact ⟨hout, hw, hc, hlog, hcom⟩
  · obtain ⟨_, _, hf, _⟩ := h
    rw [hf] at hfetch
    simp at hfetch
  · obtain ⟨_, _, hf, _⟩ := h
    rw [hf] at hfetch
    simp at hfetch
  · obtain ⟨_, hf, _⟩ := h
    rw [hf] at hfetch
    simp at hfetch

/-- The fetch of `{k1, hello}` runs out of time: the run ends at the fetch
stage, the target log is still empty and the committed offset still 0. -/
theorem fetch_failure_changes_nothing_witness :
    Except.error (Error.other "context deadline exceeded") ∈
        fetchCalls (main (Cluster.client fetchFails) (Cluster.demo [k1hello])).trace ∧
      (main (Cluster.client fetchFails) (Cluster.demo [k1hello])).outcome =
        .fatal "fetch message: %v" (Error.other "context deadline exceeded") ∧
      writeCalls (main (Cluster.client fetchFails) (Cluster.demo [k1hello])).trace = [] ∧
      commitCalls (main (Cluster.client fetchFails) (Cluster.demo [k1hello])).trace = [] ∧
      (main (Cluster.client fetchFails) (Cluster.demo [k1hello])).world.log =
        (Cluster.demo [k1hello]).log ∧
      (main (Cluster.client fetchFails) (Cluster.demo [k1hello])).world.committed =
        (Cluster.demo [k1hello]).committed :=
  ⟨by decide,
    fetch_failure_changes_nothing fetchFails (Cluster.demo [k1hello])
      (Error.other "context deadline exceeded") (by decide)⟩

/-! ## Commit and write acknowledgment -/

/-- C6 fails as stated: in the run on the broker whose commit fails, the write
of the transformed record was acknowledged (the target log holds it) and the
offset of the fetched record is not committed (the committed offset is 0). -/
theorem committed_iff_acknowledged_counterexample :
    Except.ok k1helloMsg ∈
        fetchCalls (main (Cluster.client commitFails) (Cluster.demo [k1hello])).trace ∧
      ¬ (([k1helloMsg], none) ∈
          commitCalls (main (Cluster.client commitFails) (Cluster.demo [k1hello])).trace ↔
        ([forwarded k1helloMsg], none) ∈
          writeCalls (main (Cluster.client commitFails) (Cluster.demo [k1hello])).trace) ∧
      (main (Cluster.client commitFails) (Cluster.demo [k1hello])).world.log
          "demo-topic-forwarded" =
        [{ Key := ascii "k1", Value := ascii "forwarded: hello" }] ∧
      (main (Cluster.client commitFails) (Cluster.demo [k1hello])).world.committed
        "forwarder-group" "demo-topic" = 0 := by
  decide

/-- C6, amended: in every run of `main` that fetched `msg`, a commit that
returned no error was a commit of exactly `msg` and the write of the
transformed record was acknowledged; and when that write was acknowledged, the
commit was invoked exactly once, for exactly `msg`, so the offset is committed
if and only if that one call returned no error. -/
theorem committed_only_if_acknowledged {σ : Type} (K : Client σ) (s : σ) (msg : Message)
    (hfetch : Except.ok msg ∈ fetchCalls (main K s).trace) :
    (∀ cs, (cs, none) ∈ commitCalls (main K s).trace →
        cs = [msg] ∧ ([forwarded msg], none) ∈ writeCalls (main K s).trace) ∧
      (([forwarded msg], none) ∈ writeCalls (main K s).trace →
        ∃ r, commitCalls (main K s).trace = [([msg], r)] ∧
          (([msg], none) ∈ commitCalls (main K s).trace ↔ r = none)) := by
  rcases main_run K s with h | h | h | h | h
  · obtain ⟨_, _, _, hf, _⟩ := h
    rw [hf] at hfetch
    cases hfetch
  · obtain ⟨_, _, _, hf, _⟩ := h
    rw [hf] at hfetch
    simp at hfetch
  · obtain ⟨m, err, _, _, _, hf, hw, hc, _⟩ := h
    rw [hw, hc]
    simp
  · obtain ⟨m, err, _, _, _, _, hf, hw, hc, _⟩ := h
    rw [hf] at hfetch
    simp only [List.mem_singleton, Except.ok.injEq] at hfetch
    subst hfetch
    rw [hw, hc]
    simp
  · obtain ⟨m, _, _, _, _, _, hf, hw, hc, _⟩ := h
    rw [hf] at hfetch
    simp only [List.mem_singleton, Except.ok.injEq] at hfetch
    subst hfetch
    rw [hw, hc]
    simp

/-- The run with no fault committed `{k1, hello}` after its write was
acknowledged. -/
theorem committed_only_if_acknowledged_witness :
    Except.ok k1helloMsg ∈
        fetchCalls (main (Cluster.client { }) (Cluster.demo [k1hello])).trace ∧
      ([k1helloMsg], none) ∈
        commitCalls (main (Cluster.client { }) (Cluster.demo [k1hello])).trace ∧
      ([forwarded k1helloMsg], none) ∈
        writeCalls (main (Cluster.client { }) (Cluster.demo [k1hello])).trace :=
  ⟨by decide, by decide,
    ((committed_only_if_acknowledged (Cluster.client { }) (Cluster.demo [k1hello]) k1helloMsg
      (by decide)).1 [k1helloMsg] (by decide)).2⟩

/-! ## Provisioning -/

/-- The four ways a call of `ensureTopic` can go. -/
theorem ensureTopic_run {σ : Type} (K : Client σ) (a t : String) (s : σ) :
    (∃ cause, (ensureTopic K a t s).1 = some (.wrap "dial broker: %w" cause) ∧
      createCalls (ensureTopic K a t s).2.1 = []) ∨
    (∃ cause, (ensureTopic K a t s).1 = some (.wrap "get controller: %w" cause) ∧
      createCalls (ensureTopic K a t s).2.1 = []) ∨
    (∃ cause, (ensureTopic K a t s).1 = some (.wrap "dial controller: %w" cause) ∧
      createCalls (ensureTopic K a t s).2.1 = []) ∨
    (∃ r, (ensureTopic K a t s).1 = none ∧
      createCalls (ensureTopic K a t s).2.1 = [(onePartition t, r)] ∧
      ∀ e, r = some e →
        Event.Printf "CreateTopics (maybe already exists): %v\n" [.err e] ∈
          (ensureTopic K a t s).2.1) := by
  unfold ensureTopic
  dsimp only
  split
  · next err _ _ => exact Or.inl ⟨err, rfl, rfl⟩
  · split
    · next err _ _ => exact Or.inr (Or.inl ⟨err, rfl, rfl⟩)
    · split
      · next err _ _ => exact Or.inr (Or.inr (Or.inl ⟨err, rfl, rfl⟩))
      · split
        · next err _ _ =>
          refine Or.inr (Or.inr (Or.inr ⟨some err, rfl, rfl, ?_⟩))
          intro e he
          cases he
          simp
        · refine Or.inr (Or.inr (Or.inr ⟨none, rfl, rfl, ?_⟩))
          intro e he
          cases he

/-- After a call of `ensureTopic` on the broker with no fault, the topic
exists. -/
theorem cluster_topic_exists (a t : String) (c : Cluster) :
    t ∈ (ensureTopic (Cluster.client { }) a t c).2.2.topics := by
  unfold ensureTopic Cluster.client
  dsimp only
  by_cases h : t ∈ c.topics <;> simp [h]

/-- C7: when dialing the broker, resolving the controller and dialing the
controller succeed and the create-topic request reports that the topic already
exists, `ensureTopic` (either copy) returns no error, having issued that one
request; and on the broker, a second call for the same topic after a first
call gets `TopicAlreadyExists` from the broker and returns no error. -/
theorem ensureTopic_idempotent {σ : Type} (K : Client σ) (brokerAddr topic : String)
    (s s1 s2 s3 : σ) (conn ctrlConn : Conn) (controller : Broker)
    (hdial : K.Dial "tcp" brokerAddr s = (.ok conn, s1))
    (hcontroller : K.Controller conn s1 = (.ok controller, s2))
    (hdialc : K.Dial "tcp" (controller.Host ++ ":" ++ toString controller.Port) s2 =
      (.ok ctrlConn, s3))
    (hexists : (K.CreateTopics ctrlConn (onePartition topic) s3).1 = some TopicAlreadyExists) :
    ((ensureTopic K brokerAddr topic s).1 = none ∧
      (Publisher.ensureTopic K brokerAddr topic s).1 = none ∧
      createCalls (ensureTopic K brokerAddr topic s).2.1 =
        [(onePartition topic, some TopicAlreadyExists)]) ∧
    ∀ (c : Cluster) (a t : String),
      (ensureTopic (Cluster.client { }) a t c).1 = none ∧
      createCalls (ensureTopic (Cluster.client { }) a t
          (ensureTopic (Cluster.client { }) a t c).2.2).2.1 =
        [(onePartition t, some TopicAlreadyExists)] ∧
      (ensureTopic (Cluster.client { }) a t
        (ensureTopic (Cluster.client { }) a t c).2.2).1 = none := by
  constructor
  · rw [publisher_ensureTopic_eq]
    unfold ensureTopic
    dsimp only
    rw [hdial]
    dsimp only
    rw [hcontroller]
    dsimp only
    rw [hdialc]
    dsimp only
    unfold onePartition at hexists
    cases hc : K.CreateTopics ctrlConn
      [{ Topic := topic, NumPartitions := 1, ReplicationFactor := 1 }] s3 with
    | mk r s4 =>
      rw [hc] at hexists
      dsimp only at hexists
      subst hexists
      exact ⟨rfl, rfl, rfl⟩
  · intro c a t
    have hok : ∀ d : Cluster, (ensureTopic (Cluster.client { }) a t d).1 = none :=
      fun d => cluster_ensureTopic_ok { } a t d (fun _ => rfl) rfl
    refine ⟨hok c, ?_, hok _⟩
    have hin := cluster_topic_exists a t c
    generalize (ensureTopic (Cluster.client { }) a t c).2.2 = d at hin
    unfold ensureTopic Cluster.client
    dsimp only
    simp [hin, createCalls, onePartition]

/-- The second call of `ensureTopic` for `demo-topic-forwarded` on the broker:
the topic was created by the first call, the create-topic request reports
`TopicAlreadyExists`, and the call returns no error. -/
theorem ensureTopic_idempotent_witness :
    (ensureTopic (Cluster.client { }) "localhost:9092" "demo-topic-forwarded"
        (Cluster.demo [ ])).1 = none ∧
      (ensureTopic (Cluster.client { }) "localhost:9092" "demo-topic-forwarded"
        (ensureTopic (Cluster.client { }) "localhost:9092" "demo-topic-forwarded"
          (Cluster.demo [ ])).2.2).1 = none ∧
      createCalls (ensureTopic (Cluster.client { }) "localhost:9092" "demo-topic-forwarded"
        (ensureTopic (Cluster.client { }) "localhost:9092" "demo-topic-forwarded"
          (Cluster.demo [ ])).2.2).2.1 =
        [(onePartition "demo-topic-forwarded", some TopicAlreadyExists)] :=
  ⟨by decide,
    (ensureTopic_idempotent (Cluster.client { }) "localhost:9092" "demo-topic-forwarded"
      (ensureTopic (Cluster.client { }) "localhost:9092" "demo-topic-forwarded"
        (Cluster.demo [ ])).2.2 _ _ _ { address := "localhost:9092" }
      { address := "localhost:9092" } { Host := "localhost", Port := 9092 }
      rfl rfl rfl rfl).1.1,
    (ensureTopic_idempotent (Cluster.client { }) "localhost:9092" "demo-topic-forwarded"
      (ensureTopic (Cluster.client { }) "localhost:9092" "demo-topic-forwarded"
        (Cluster.demo [ ])).2.2 _ _ _ { address := "localhost:9092" }
      { address := "localhost:9092" } { Host := "localhost", Port := 9092 }
      rfl rfl rfl rfl).1.2.2⟩

/-- C8 fails as stated: the broker refuses the create-topic request with
`TopicAuthorizationFailed`, an error other than `TopicAlreadyExists`, and
`ensureTopic` (either copy) returns no error. -/
theorem create_error_surfaced_counterexample :
    createCalls (ensureTopic (Cluster.client createRefused) "localhost:9092"
        "demo-topic-forwarded" (Cluster.demo [k1hello])).2.1 =
        [(onePartition "demo-topic-forwarded", some (Error.kafka 29))] ∧
      Error.kafka 29 ≠ TopicAlreadyExists ∧
      (ensureTopic (Cluster.client createRefused) "localhost:9092" "demo-topic-forwarded"
        (Cluster.demo [k1hello])).1 = none ∧
      (Publisher.ensureTopic (Cluster.client createRefused) "localhost:9092" "demo-topic"
        (Cluster.demo [k1hello])).1 = none := by
  decide

/-- C8, amended: whatever error the create-topic request reports,
`TopicAlreadyExists` or any other, `ensureTopic` (either copy) logs it and
returns no error; an error `ensureTopic` does return is the wrapped error of
dialing the broker, of resolving the controller or of dialing the controller,
and then no create-topic request was made. -/
theorem create_error_logged_not_returned {σ : Type} (K : Client σ) (brokerAddr topic : String)
    (s : σ) (cfgs : List TopicConfig) (e : Error)
    (hcreate : (cfgs, some e) ∈ createCalls (ensureTopic K brokerAddr topic s).2.1) :
    ((ensureTopic K brokerAddr topic s).1 = none ∧
      (Publisher.ensureTopic K brokerAddr topic s).1 = none ∧
      Event.Printf "CreateTopics (maybe already exists): %v\n" [.err e] ∈
        (ensureTopic K brokerAddr topic s).2.1) ∧
    ∀ (s2 : σ) (err : Error), (ensureTopic K brokerAddr topic s2).1 = some err →
      createCalls (ensureTopic K brokerAddr topic s2).2.1 = [] ∧
      ∃ cause, err = .wrap "dial broker: %w" cause ∨ err = .wrap "get controller: %w" cause ∨
        err = .wrap "dial controller: %w" cause := by
  constructor
  · rw [publisher_ensureTopic_eq]
    rcases ensureTopic_run K brokerAddr topic s with h | h | h | h
    · obtain ⟨_, _, hc⟩ := h
      rw [hc] at hcreate
      cases hcreate
    · obtain ⟨_, _, hc⟩ := h
      rw [hc] at hcreate
      cases hcreate
    · obtain ⟨_, _, hc⟩ := h
      rw [hc] at hcreate
      cases hcreate
    · obtain ⟨r, hnone, hc, hlog⟩ := h
      rw [hc] at hcreate
      simp only [List.mem_singleton, Prod.mk.injEq] at hcreate
      exact ⟨hnone, hnone, hlog e hcreate.2.symm⟩
  · intro s2 err herr
    rcases ensureTopic_run K brokerAddr topic s2 with h | h | h | h
    · obtain ⟨cause, hr, hc⟩ := h
      rw [hr] at herr
      exact ⟨hc, cause, Or.inl (Option.some.inj herr).symm⟩
    · obtain ⟨cause, hr, hc⟩ := h
      rw [hr] at herr
      exact ⟨hc, cause, Or.inr (Or.inl (Option.some.inj herr).symm)⟩
    · obtain ⟨cause, hr, hc⟩ := h
      rw [hr] at herr
      exact ⟨hc, cause, Or.inr (Or.inr (Option.some.inj herr).symm)⟩
    · obtain ⟨_, hr, _⟩ := h
      rw [hr] at herr
      cases herr

/-- The refused create-topic request is logged and `ensureTopic` returns no
error. -/
theorem create_error_logged_not_returned_witness :
    (onePartition "demo-topic-forwarded", some (Error.kafka 29)) ∈
        createCalls (ensureTopic (Cluster.client createRefused) "localhost:9092"
          "demo-topic-forwarded" (Cluster.demo [k1hello])).2.1 ∧
      (ensureTopic (Cluster.client createRefused) "localhost:9092" "demo-topic-forwarded"
        (Cluster.demo [k1hello])).1 = none ∧
      Event.Printf "CreateTopics (maybe already exists): %v\n" [.err (Error.kafka 29)] ∈
        (ensureTopic (Cluster.client createRefused) "localhost:9092" "demo-topic-forwarded"
          (Cluster.demo [k1hello])).2.1 :=
  ⟨by decide,
    (create_error_logged_not_returned (Cluster.client createRefused) "localhost:9092"
      "demo-topic-forwarded" (Cluster.demo [k1hello]) (onePartition "demo-topic-forwarded")
      (Error.kafka 29) (by decide)).1.1,
    (create_error_logged_not_returned (Cluster.client createRefused) "localhost:9092"
      "demo-topic-forwarded" (Cluster.demo [k1hello]) (onePartition "demo-topic-forwarded")
      (Error.kafka 29) (by decide)).1.2.2⟩

/-- C9 fails as stated: the controller cannot be reached, `ensureTopic` returns
the error of dialing it, and `main` ends there: no fetch is made. -/
theorem provisioning_error_nonfatal_counterexample :
    (ensureTopic (Cluster.client controllerDown) "localhost:9092" "demo-topic-forwarded"
        Cluster.remoteController).1 =
        some (.wrap "dial controller: %w" (.other "connection refused")) ∧
      fetchCalls (main (Cluster.client controllerDown) Cluster.remoteController).trace = [] ∧
      (main (Cluster.client controllerDown) Cluster.remoteController).outcome =
        .fatal "ensure target topic: %v"
          (.wrap "dial controller: %w" (.other "connection refused")) := by
  decide

/-- C9, amended: a provisioning error is fatal to the pipeline. In every run in
which `ensureTopic` returns an error, `main` ends with
`log.Fatalf("ensure target topic: %v", err)` and invokes no fetch, no write
and no commit; the run reaches the fetch stage exactly when `ensureTopic`
returns no error. -/
theorem provisioning_error_is_fatal {σ : Type} (K : Client σ) (s : σ) (err : Error)
    (hensure : (ensureTopic K "localhost:9092" "demo-topic-forwarded" s).1 = some err) :
    ((main K s).outcome = .fatal "ensure target topic: %v" err ∧
      fetchCalls (main K s).trace = [] ∧ writeCalls (main K s).trace = [] ∧
      commitCalls (main K s).trace = []) ∧
    ∀ s2 : σ, (fetchCalls (main K s2).trace).length = 1 ↔
      (ensureTopic K "localhost:9092" "demo-topic-forwarded" s2).1 = none := by
  constructor
  · rcases main_run K s with h | h | h | h | h
    · obtain ⟨e, ho, he, hf, hw, hc, _⟩ := h
      rw [hensure] at he
      rw [ho, Option.some.inj he]
      exact ⟨rfl, hf, hw, hc⟩
    · obtain ⟨_, _, he, _⟩ := h
      rw [hensure] at he
      cases he
    · obtain ⟨_, _, _, _, he, _⟩ := h
      rw [hensure] at he
      cases he
    · obtain ⟨_, _, _, _, _, he, _⟩ := h
      rw [hensure] at he
      cases he
    · obtain ⟨_, _, _, _, _, he, _⟩ := h
      rw [hensure] at he
      cases he
  · intro s2
    rcases main_run K s2 with h | h | h | h | h
    · obtain ⟨e, _, he, hf, _⟩ := h
      rw [he, hf]
      simp
    · obtain ⟨_, _, he, hf, _⟩ := h
      rw [he, hf]
      simp
    · obtain ⟨_, _, _, _, he, hf, _⟩ := h
      rw [he, hf]
      simp
    · obtain ⟨_, _, _, _, _, he, hf, _⟩ := h
      rw [he, hf]
      simp
    · obtain ⟨_, _, _, _, _, he, hf, _⟩ := h
      rw [he, hf]
      simp

/-- The run whose controller cannot be reached ends in `ensureTopic`. -/
theorem provisioning_error_is_fatal_witness :
    (ensureTopic (Cluster.client controllerDown) "localhost:9092" "demo-topic-forwarded"
        Cluster.remoteController).1 =
        some (.wrap "dial controller: %w" (.other "connection refused")) ∧
      (main (Cluster.client controllerDown) Cluster.remoteController).outcome =
        .fatal "ensure target topic: %v"
          (.wrap "dial controller: %w" (.other "connection refused")) ∧
      fetchCalls (main (Cluster.client controllerDown) Cluster.remoteController).trace = [] ∧
      writeCalls (main (Cluster.client controllerDown) Cluster.remoteController).trace = [] ∧
      commitCalls (main (Cluster.client controllerDown) Cluster.remoteController).trace = [] :=
  ⟨by decide,
    (provisioning_error_is_fatal (Cluster.client controllerDown) Cluster.remoteController
      (.wrap "dial controller: %w" (.other "connection refused")) (by decide)).1⟩

theorem stageCalls_append (a b : List Event) :
    stageCalls (a ++ b) = stageCalls a ++ stageCalls b := by
  simp [stageCalls]

theorem ensureTopic_no_stageCalls {σ : Type} (K : Client σ) (a t : String) (s : σ) :
    stageCalls (ensureTopic K a t s).2.1 = [] ∧
      (ensureTopic K a t s).2.1.countP isForwardedLine = 0 := by
  unfold ensureTopic
  dsimp only
  repeat' split
  all_goals exact ⟨by simp [stageCalls], by simp [isForwardedLine]⟩

theorem deferred_no_stageCalls {σ : Type} (K : Client σ) (r : ReaderConfig)
    (w : WriterConfig) (s : σ) :
    stageCalls (deferred K r w s).1 = [] ∧
      (deferred K r w s).1.countP isForwardedLine = 0 := by
  unfold deferred
  simp only []
  cases (K.WriterClose w s).1 <;> cases (K.ReaderClose r (K.WriterClose w s).2).1 <;>
    exact ⟨by simp [stageCalls], by simp [isForwardedLine]⟩

/-- The five ways a run of `main` can go: the result of `ensureTopic`, the
outcome, the stage calls in order and the number of success lines. -/
theorem main_report {σ : Type} (K : Client σ) (s : σ) :
    (∃ err, (ensureTopic K "localhost:9092" "demo-topic-forwarded" s).1 = some err ∧
      (main K s).outcome = .fatal "ensure target topic: %v" err ∧
      stageCalls (main K s).trace = [] ∧
      (main K s).trace.countP isForwardedLine = 0) ∨
    (∃ err, (ensureTopic K "localhost:9092" "demo-topic-forwarded" s).1 = none ∧
      (main K s).outcome = .fatal "fetch message: %v" err ∧
      stageCalls (main K s).trace = [(.fetch, some err)] ∧
      (main K s).trace.countP isForwardedLine = 0) ∨
    (∃ err, (ensureTopic K "localhost:9092" "demo-topic-forwarded" s).1 = none ∧
      (main K s).outcome = .fatal "write to target topic failed: %v" err ∧
      stageCalls (main K s).trace = [(.fetch, none), (.write, some err)] ∧
      (main K s).trace.countP isForwardedLine = 0) ∨
    (∃ err, (ensureTopic K "localhost:9092" "demo-topic-forwarded" s).1 = none ∧
      (main K s).outcome = .fatal "commit message: %v" err ∧
      stageCalls (main K s).trace = [(.fetch, none), (.write, none), (.commit, some err)] ∧
      (main K s).trace.countP isForwardedLine = 0) ∨
    ((ensureTopic K "localhost:9092" "demo-topic-forwarded" s).1 = none ∧
      (main K s).outcome = .returned ∧
      stageCalls (main K s).trace = [(.fetch, none), (.write, none), (.commit, none)] ∧
      (main K s).trace.countP isForwardedLine = 1) := by
  have hE := ensureTopic_no_stageCalls K "localhost:9092" "demo-topic-forwarded" s
  unfold main
  dsimp only
  split
  · next err t0 s0 h =>
    left
    simp only [List.getElem_cons_zero] at h
    rw [h] at hE ⊢
    exact ⟨err, rfl, rfl, hE.1, hE.2⟩
  · next t0 s0 h =>
    right
    simp only [List.getElem_cons_zero] at h
    rw [h] at hE ⊢
    obtain ⟨hs, hl⟩ := hE
    dsimp only at hs hl ⊢
    split
    · next err s1 h1 =>
      left
      refine ⟨err, rfl, rfl, ?_, ?_⟩
      · simp only [stageCalls_append, hs]
        rfl
      · simp only [List.countP_append, hl]
        rfl
    · next msg s1 h1 =>
      right
      split
      · next err s2 h2 =>
        left
        refine ⟨err, rfl, rfl, ?_, ?_⟩
        · simp only [stageCalls_append, hs]
          rfl
        · simp only [List.countP_append, hl]
          rfl
      · next s2 h2 =>
        right
        split
        · next err s3 h3 =>
          left
          refine ⟨err, rfl, rfl, ?_, ?_⟩
          · simp only [stageCalls_append, hs]
            rfl
          · simp only [List.countP_append, hl]
            rfl
        · next s3 h3 =>
          right
          have hD := deferred_no_stageCalls K
            { Brokers := ["localhost:9092"], Topic := "demo-topic", GroupID := "forwarder-group" }
            { Brokers := ["localhost:9092"], Topic := "demo-topic-forwarded" } s3
          refine ⟨rfl, rfl, ?_, ?_⟩
          · simp only [stageCalls_append, hs, hD.1]
            rfl
          · simp only [List.countP_append, hl, hD.2]
            rfl

/-! ## The outcome of a run -/

/-- C11 fails as stated: in the run whose controller cannot be reached, the
outcome is neither the success outcome nor a failure naming the stage of a
first fetch, write or commit error: no stage was invoked, and the outcome names
`ensure target topic`. -/
theorem outcome_names_stage_counterexample :
    ¬ ((main (Cluster.client controllerDown) Cluster.remoteController).outcome = .returned ∨
        ∃ st e,
          firstError (main (Cluster.client controllerDown) Cluster.remoteController).trace =
            some (st, e) ∧
          (main (Cluster.client controllerDown) Cluster.remoteController).outcome =
            .fatal st.format e) ∧
      stageCalls (main (Cluster.client controllerDown) Cluster.remoteController).trace = [] ∧
      (main (Cluster.client controllerDown) Cluster.remoteController).outcome =
        .fatal "ensure target topic: %v"
          (.wrap "dial controller: %w" (.other "connection refused")) := by
  have hout : (main (Cluster.client controllerDown) Cluster.remoteController).outcome =
      .fatal "ensure target topic: %v"
        (.wrap "dial controller: %w" (.other "connection refused")) := by decide
  have hfirst :
      firstError (main (Cluster.client controllerDown) Cluster.remoteController).trace =
        none := by decide
  refine ⟨?_, by decide, hout⟩
  rintro (h | ⟨st, e, h, _⟩)
  · rw [hout] at h
    cases h
  · rw [hfirst] at h
    cases h

/-- C11, amended: the outcome of a run of `main` is determined by its first
failing step. It is the success outcome if and only if fetch, write and commit
were each invoked and returned no error; a first stage error makes it the
failure that names that stage and carries that error; an error of
`ensureTopic` makes it the failure that names `ensure target topic`, carries
that error, and comes before any stage call; one of the three is the case, and
exactly one outcome is reported. -/
theorem outcome_names_first_failing_step {σ : Type} (K : Client σ) (s : σ) :
    ((main K s).outcome = .returned ↔
        stageCalls (main K s).trace = [(.fetch, none), (.write, none), (.commit, none)]) ∧
      (∀ st e, firstError (main K s).trace = some (st, e) →
        (main K s).outcome = .fatal st.format e) ∧
      (∀ err, (ensureTopic K "localhost:9092" "demo-topic-forwarded" s).1 = some err →
        (main K s).outcome = .fatal "ensure target topic: %v" err ∧
          stageCalls (main K s).trace = []) ∧
      ((main K s).outcome = .returned ∨ (∃ st e, firstError (main K s).trace = some (st, e)) ∨
        ∃ err, (ensureTopic K "localhost:9092" "demo-topic-forwarded" s).1 = some err) ∧
      reports (main K s) = 1 := by
  rcases main_report K s with h | h | h | h | h
  · obtain ⟨err, he, ho, hs, hl⟩ := h
    refine ⟨?_, ?_, ?_, Or.inr (Or.inr ⟨err, he⟩), ?_⟩
    · rw [ho, hs]
      simp
    · intro st e hfe
      rw [firstError, hs] at hfe
      cases hfe
    · intro err2 he2
      rw [he] at he2
      rw [ho, Option.some.inj he2]
      exact ⟨rfl, hs⟩
    · simp only [reports, hl, ho]
  · obtain ⟨err, he, ho, hs, hl⟩ := h
    refine ⟨?_, ?_, ?_, Or.inr (Or.inl ⟨.fetch, err, by rw [firstError, hs]; rfl⟩), ?_⟩
    · rw [ho, hs]
      simp
    · intro st e hfe
      rw [firstError, hs] at hfe
      simp only [List.findSome?, Option.map, Option.some.injEq, Prod.mk.injEq] at hfe
      obtain ⟨h1, h2⟩ := hfe
      subst h1; subst h2
      exact ho
    · intro err2 he2
      rw [he] at he2
      cases he2
    · simp only [reports, hl, ho]
  · obtain ⟨err, he, ho, hs, hl⟩ := h
    refine ⟨?_, ?_, ?_, Or.inr (Or.inl ⟨.write, err, by rw [firstError, hs]; rfl⟩), ?_⟩
    · rw [ho, hs]
      simp
    · intro st e hfe
      rw [firstError, hs] at hfe
      simp only [List.findSome?, Option.map, Option.some.injEq, Prod.mk.injEq] at hfe
      obtain ⟨h1, h2⟩ := hfe
      subst h1; subst h2
      exact ho
    · intro err2 he2
      rw [he] at he2
      cases he2
    · simp only [reports, hl, ho]
  · obtain ⟨err, he, ho, hs, hl⟩ := h
    refine ⟨?_, ?_, ?_, Or.inr (Or.inl ⟨.commit, err, by rw [firstError, hs]; rfl⟩), ?_⟩
    · rw [ho, hs]
      simp
    · intro st e hfe
      rw [firstError, hs] at hfe
      simp only [List.findSome?, Option.map, Option.some.injEq, Prod.mk.injEq] at hfe
      obtain ⟨h1, h2⟩ := hfe
      subst h1; subst h2
      exact ho
    · intro err2 he2
      rw [he] at he2
      cases he2
    · simp only [reports, hl, ho]
  · obtain ⟨he, ho, hs, hl⟩ := h
    refine ⟨?_, ?_, ?_, Or.inl ho, ?_⟩
    · rw [ho, hs]
      simp
    · intro st e hfe
      rw [firstError, hs] at hfe
      cases hfe
    · intro err2 he2
      rw [he] at he2
      cases he2
    · simp only [reports, hl, ho]

/-- The run whose commit fails after the write: the first error is the one of
the commit stage, and the outcome names that stage and carries that error. -/
theorem outcome_names_first_failing_step_witness :
    firstError (main (Cluster.client commitFails) (Cluster.demo [k1hello])).trace =
        some (.commit, .other "coordinator unavailable") ∧
      (main (Cluster.client commitFails) (Cluster.demo [k1hello])).outcome =
        .fatal "commit message: %v" (.other "coordinator unavailable") :=
  ⟨by decide,
    (outcome_names_first_failing_step (Cluster.client commitFails)
      (Cluster.demo [k1hello])).2.1 .commit (.other "coordinator unavailable") (by decide)⟩

/-- C12: in every run of `main` the stage calls, in order, are a prefix of
fetch, write, commit; each stage is called at most once; and every stage call
but the last returned no error, so a stage is called only after every earlier
stage succeeded and nothing is called after a stage fails. -/
theorem stage_calls_are_a_prefix {σ : Type} (K : Client σ) (s : σ) :
    (stageCalls (main K s).trace).map Prod.fst <+: [Stage.fetch, Stage.write, Stage.commit] ∧
      (∀ st : Stage, (stageCalls (main K s).trace).countP (fun c => c.1 == st) ≤ 1) ∧
      ((stageCalls (main K s).trace).dropLast.all fun c => c.2.isNone) = true := by
  rcases main_report K s with h | h | h | h | h
  · obtain ⟨_, _, _, hs, _⟩ := h
    rw [hs]
    exact ⟨⟨[.fetch, .write, .commit], rfl⟩, fun st => by simp, rfl⟩
  · obtain ⟨_, _, _, hs, _⟩ := h
    rw [hs]
    exact ⟨⟨[.write, .commit], rfl⟩, fun st => by cases st <;> simp [List.countP_cons], rfl⟩
  · obtain ⟨_, _, _, hs, _⟩ := h
    rw [hs]
    exact ⟨⟨[.commit], rfl⟩, fun st => by cases st <;> simp [List.countP_cons], rfl⟩
  · obtain ⟨_, _, _, hs, _⟩ := h
    rw [hs]
    exact ⟨⟨[], rfl⟩, fun st => by cases st <;> simp [List.countP_cons], rfl⟩
  · obtain ⟨_, _, hs, _⟩ := h
    rw [hs]
    exact ⟨⟨[], rfl⟩, fun st => by cases st <;> simp [List.countP_cons], rfl⟩

end KafkaPlayground

/-! # cassandra-playground: the retry loop is bounded -/

namespace CassandraPlayground

theorem loop_range (create : Nat → Except Error Session) (cluster : ClusterConfig)
    (n i : Nat) (err : Option Error) :
    (∃ k session, i ≤ k ∧ k < i + n ∧ create k = .ok session ∧
      (∀ j, i ≤ j → j < k → ∃ e, create j = .error e) ∧
      (mustCreateSession.loop create cluster (List.range' i n) err).1 = .returned session ∧
      attempts (mustCreateSession.loop create cluster (List.range' i n) err).2 =
        (List.range' i (k - i)).map create ++ [.ok session]) ∨
    ((∀ j, i ≤ j → j < i + n → ∃ e, create j = .error e) ∧
      (∃ last, (mustCreateSession.loop create cluster (List.range' i n) err).1 =
        .fatal "unable to connect to Cassandra after retries: %v" last ∧
        (n = 0 → last = err) ∧
        (0 < n → ∃ e, create (i + n - 1) = .error e ∧ last = some e)) ∧
      attempts (mustCreateSession.loop create cluster (List.range' i n) err).2 =
        (List.range' i n).map create) := by
  induction n generalizing i err with
  | zero =>
    right
    refine ⟨fun j h1 h2 => absurd h2 (by omega), ⟨err, rfl, fun _ => rfl, fun h => absurd h (by omega)⟩, rfl⟩
  | succ n ih =>
    rw [List.range'_succ]
    unfold mustCreateSession.loop
    cases hc : create i with
    | ok session =>
      left
      refine ⟨i, session, le_refl _, by omega, hc, fun j h1 h2 => absurd h2 (by omega), rfl, ?_⟩
      simp [attempts]
    | error e =>
      dsimp only
      rcases ih (i + 1) (some e) with h | h
      · obtain ⟨k, session, hk1, hk2, hok, hbefore, hres, hatt⟩ := h
        left
        refine ⟨k, session, by omega, by omega, hok, ?_, hres, ?_⟩
        · intro j h1 h2
          by_cases hj : j = i
          · subst hj
            exact ⟨e, hc⟩
          · exact hbefore j (by omega) h2
        · have hki : k - i = (k - (i + 1)) + 1 := by omega
          rw [hki, List.range'_succ]
          simp only [attempts, List.filterMap_append] at hatt ⊢
          simp [hatt, hc]
      · obtain ⟨hall, ⟨last, hres, _, hlast⟩, hatt⟩ := h
        right
        refine ⟨?_, ⟨last, hres, fun h0 => absurd h0 (by omega), ?_⟩, ?_⟩
        · intro j h1 h2
          by_cases hj : j = i
          · subst hj
            exact ⟨e, hc⟩
          · exact hall j (by omega) (by omega)
        · intro _
          by_cases hn : n = 0
          · subst hn
            refine ⟨e, by simpa using hc, ?_⟩
            simp [mustCreateSession.loop] at hres
            exact hres.symm
          · obtain ⟨e2, h1, h2⟩ := hlast (by omega)
            refine ⟨e2, ?_, h2⟩
            have : i + (n + 1) - 1 = i + 1 + n - 1 := by omega
            rw [this]
            exact h1
        · simp only [attempts, List.filterMap_append] at hatt ⊢
          simp [hatt, hc]

/-- C13: for every sequence `create` of session-creation results,
`mustCreateSession` makes at most 10 attempts; a session it returns is the
result of the first successful attempt, every attempt before it failed, and it
was the last attempt made; and it ends in `log.Fatalf` if and only if the 10
attempts all fail, in which case it made exactly those 10 attempts and reports
the error of the last. -/
theorem mustCreateSession_bounded (create : Nat → Except Error Session) (keyspace : String)
    (port : Int) :
    (attempts (mustCreateSession create keyspace port).2).length ≤ 10 ∧
      (∀ session, (mustCreateSession create keyspace port).1 = .returned session →
        ∃ k, k < 10 ∧ create k = .ok session ∧ (∀ j, j < k → ∃ e, create j = .error e) ∧
          attempts (mustCreateSession create keyspace port).2 =
            (List.range k).map create ++ [.ok session]) ∧
      ((∃ format err, (mustCreateSession create keyspace port).1 = .fatal format err) ↔
        ∀ k, k < 10 → ∃ e, create k = .error e) ∧
      ((∀ k, k < 10 → ∃ e, create k = .error e) →
        attempts (mustCreateSession create keyspace port).2 = (List.range 10).map create ∧
        ∃ e, create 9 = .error e ∧
          (mustCreateSession create keyspace port).1 =
            .fatal "unable to connect to Cassandra after retries: %v" (some e)) := by
  unfold mustCreateSession
  dsimp only
  rw [List.range_eq_range']
  generalize ({ (if keyspace ≠ "" then
      { ({ (NewCluster ["127.0.0.1"]) with Port := port }) with Keyspace := keyspace }
    else { (NewCluster ["127.0.0.1"]) with Port := port }) with
      Consistency := Consistency.Quorum, Timeout := 5 * Second } : ClusterConfig) = cluster
  rcases loop_range create cluster 10 0 none with h | h
  · obtain ⟨k, session, _, hk, hok, hbefore, hres, hatt⟩ := h
    have hk10 : k < 10 := by omega
    refine ⟨?_, ?_, ?_, ?_⟩
    · rw [hatt]
      simp
      omega
    · intro session2 h2
      rw [hres] at h2
      cases h2
      refine ⟨k, hk10, hok, fun j hj => hbefore j (Nat.zero_le _) hj, ?_⟩
      rw [hatt, List.range_eq_range']
      rfl
    · rw [hres]
      constructor
      · rintro ⟨_, _, h2⟩
        cases h2
      · intro hall
        obtain ⟨e, he⟩ := hall k hk10
        rw [hok] at he
        cases he
    · intro hall
      obtain ⟨e, he⟩ := hall k hk10
      rw [hok] at he
      cases he
  · obtain ⟨hall, ⟨last, hres, _, hlast⟩, hatt⟩ := h
    obtain ⟨e, he9, hle⟩ := hlast (by omega)
    have hall2 : ∀ k, k < 10 → ∃ e, create k = .error e :=
      fun k hk => hall k (Nat.zero_le _) (by omega)
    refine ⟨?_, ?_, ?_, ?_⟩
    · rw [hatt]
      simp
    · intro session h2
      rw [hres] at h2
      cases h2
    · exact ⟨fun _ => hall2, fun _ => ⟨_, _, hres⟩⟩
    · intro _
      refine ⟨hatt, e, he9, ?_⟩
      rw [hres, hle]

/-- Session creation fails three times and then succeeds: four attempts are
made and the session of the fourth is returned. -/
theorem mustCreateSession_bounded_witness :
    (mustCreateSession flaky "playground" 9042).1 = .returned { id := 3 } ∧
      (attempts (mustCreateSession flaky "playground" 9042).2).length = 4 ∧
      ∃ k, k < 10 ∧ flaky k = .ok { id := 3 } ∧ (∀ j, j < k → ∃ e, flaky j = .error e) ∧
        attempts (mustCreateSession flaky "playground" 9042).2 =
          (List.range k).map flaky ++ [.ok { id := 3 }] :=
  ⟨by decide, by decide,
    (mustCreateSession_bounded flaky "playground" 9042).2.1 { id := 3 } (by decide)⟩

end CassandraPlayground

/-! # rest-playground: the IDs the store assigns -/

namespace RestPlayground

theorem listUsers_eq (s : userStore) : s.listUsers = (s.users, s) := by
  simp [userStore.listUsers, copy]

theorem numbered_length (m : Int) (names : List String) :
    (numbered m names).length = names.length := by
  induction names generalizing m with
  | nil => rfl
  | cons n ns ih => simp [numbered, ih]

theorem numbered_get (m : Int) (names : List String) (k : Nat) (hk : k < names.length) :
    (numbered m names)[k]? = some { ID := m + k, Name := names[k] } := by
  induction names generalizing m k with
  | nil => simp at hk
  | cons n ns ih =>
    cases k with
    | zero => simp [numbered]
    | succ k =>
      simp only [numbered, List.getElem?_cons_succ, List.getElem_cons_succ]
      rw [ih (m + 1) k (by simpa using hk)]
      simp
      omega

theorem numbered_ids (m : Int) (names : List String) :
    (numbered m names).map User.ID =
      (List.range names.length).map (fun (k : Nat) => m + (k : Int)) := by
  induction names generalizing m with
  | nil => rfl
  | cons n ns ih =>
    simp only [numbered, List.map_cons, List.length_cons, List.range_succ_eq_map, ih,
      List.map_map]
    simp only [Nat.cast_zero, add_zero, List.cons.injEq, true_and]
    apply List.map_congr_left
    intro a _
    simp only [Function.comp_apply, Nat.succ_eq_add_one, Nat.cast_add, Nat.cast_one]
    omega

theorem numbered_increasing (m : Int) (names : List String) :
    (∀ u ∈ numbered m names, m ≤ u.ID) ∧
      (numbered m names).Pairwise (fun a b => a.ID < b.ID) := by
  induction names generalizing m with
  | nil => simp [numbered]
  | cons n ns ih =>
    obtain ⟨h1, h2⟩ := ih (m + 1)
    constructor
    · intro u hu
      simp only [numbered, List.mem_cons] at hu
      rcases hu with hu | hu
      · rw [hu]
      · have := h1 u hu
        omega
    · simp only [numbered, List.pairwise_cons]
      refine ⟨fun b hb => ?_, h2⟩
      have := h1 b hb
      omega

theorem addUsers_spec (s : userStore) (names : List String)
    (hlo : 0 ≤ s.nextID) (hhi : s.nextID + names.length < 9223372036854775808) :
    (addUsers s names).1 = numbered s.nextID names ∧
      (addUsers s names).2.users = s.users ++ numbered s.nextID names ∧
      (addUsers s names).2.nextID = s.nextID + names.length := by
  induction names generalizing s with
  | nil => simp [addUsers, numbered]
  | cons n ns ih =>
    have hw : wrap64 (s.nextID + 1) = s.nextID + 1 := by
      unfold wrap64
      simp only [List.length_cons] at hhi
      omega
    have h := ih (s.addUser n).2 (by simp only [userStore.addUser, hw]; omega)
      (by simp only [userStore.addUser, hw, List.length_cons] at hhi ⊢; omega)
    simp only [userStore.addUser, hw] at h
    simp only [addUsers, userStore.addUser, hw, numbered, List.length_cons]
    obtain ⟨h1, h2, h3⟩ := h
    refine ⟨by rw [h1], by rw [h2]; simp, by rw [h3]; push_cast; omega⟩

/-- C14: starting from `newUserStore`, after `addUser` calls for the names of
`names` (fewer than 2^63 - 1 of them, so that no `int` wraps around): the call
number `k + 1` returned the user with ID `k + 1` and the name it was given; the
stored users are the returned users in the order of the calls, their IDs are
1, 2, ..., n and strictly increasing; `nextID` is n + 1; and `listUsers`
returns the stored users and leaves the store as it is. -/
theorem addUser_assigns_consecutive_ids (names : List String)
    (hlen : names.length < 9223372036854775807) :
    (addUsers newUserStore names).1.length = names.length ∧
      (∀ (k : Nat) (hk : k < names.length),
        (addUsers newUserStore names).1[k]? = some { ID := (k : Int) + 1, Name := names[k] }) ∧
      (addUsers newUserStore names).2.users = (addUsers newUserStore names).1 ∧
      (addUsers newUserStore names).2.users.map User.ID =
        (List.range names.length).map (fun (k : Nat) => (k : Int) + 1) ∧
      (addUsers newUserStore names).2.users.Pairwise (fun a b => a.ID < b.ID) ∧
      (addUsers newUserStore names).2.nextID = (names.length : Int) + 1 ∧
      (addUsers newUserStore names).2.listUsers =
        ((addUsers newUserStore names).2.users, (addUsers newUserStore names).2) := by
  obtain ⟨h1, h2, h3⟩ := addUsers_spec newUserStore names (by decide)
    (by simp only [newUserStore]; omega)
  simp only [newUserStore, List.nil_append] at h1 h2 h3
  have h2 : (addUsers newUserStore names).2.users = numbered 1 names := h2
  have h1 : (addUsers newUserStore names).1 = numbered 1 names := h1
  refine ⟨?_, ?_, ?_, ?_, ?_, ?_, listUsers_eq _⟩
  · rw [h1, numbered_length]
  · intro k hk
    rw [h1, numbered_get 1 names k hk]
    simp only [Option.some.injEq, User.mk.injEq, and_true]
    omega
  · rw [h1, h2]
  · rw [h2, numbered_ids]
    apply List.map_congr_left
    intro a _
    omega
  · rw [h2]
    exact (numbered_increasing 1 names).2
  · have h3 : (addUsers newUserStore names).2.nextID = 1 + (names.length : Int) := h3
    rw [h3]
    omega

/-- Three `addUser` calls: the users returned have the IDs 1, 2, 3, they are
the stored users, `nextID` is 4 and `listUsers` returns them. -/
theorem addUser_assigns_consecutive_ids_witness :
    (addUsers newUserStore ["ann", "bob", "cy"]).1 =
        [{ ID := 1, Name := "ann" }, { ID := 2, Name := "bob" }, { ID := 3, Name := "cy" }] ∧
      (addUsers newUserStore ["ann", "bob", "cy"]).2.users =
        (addUsers newUserStore ["ann", "bob", "cy"]).1 ∧
      (addUsers newUserStore ["ann", "bob", "cy"]).2.nextID = ((3 : Nat) : Int) + 1 ∧
      (addUsers newUserStore ["ann", "bob", "cy"]).2.listUsers.1 =
        [{ ID := 1, Name := "ann" }, { ID := 2, Name := "bob" }, { ID := 3, Name := "cy" }] :=
  ⟨by decide,
    (addUser_assigns_consecutive_ids ["ann", "bob", "cy"] (by decide)).2.2.1,
    (addUser_assigns_consecutive_ids ["ann", "bob", "cy"] (by decide)).2.2.2.2.2.1,
    by decide⟩

end RestPlayground
